import Mathlib

/-!
The IPv4 blacklist loader `kernel/samples/bpf/xdp_ddos01_blacklist_user.c`.

A shallow embedding of the C file. The process state the C code touches (its
globals, the kernel table behind `map_fd[0]`, the XDP attachment, the export path,
what it writes) is an explicit `World`; every C function is a function on `World`
that returns to its caller, ends the process with an exit code, or is cut off by a
signal. A piece of the program is a tree of its primitive actions, so that a
signal can be delivered before any one of them. Loops that the C code leaves
through a condition on the kernel table take a bound on their rounds.
-/

namespace XdpDdos

/-! ## Constants of the source -/

/-- `IF_NAMESIZE` of `<net/if.h>`. -/
def IF_NAMESIZE : Nat := 16

def EXIT_OK : Int := 0
def EXIT_FAIL : Int := 1
def EXIT_FAIL_OPTION : Int := 2
def EXIT_FAIL_XDP : Int := 3
def EXIT_FAIL_KEY_UPDATE : Int := 4
def EXIT_FAIL_MAP : Int := 5
def EXIT_FAIL_IP : Int := 102

/-- The seven exit codes the source defines, in the order of its `#define`s. -/
def exit_codes : List Int :=
  [EXIT_OK, EXIT_FAIL, EXIT_FAIL_OPTION, EXIT_FAIL_XDP, EXIT_FAIL_KEY_UPDATE,
   EXIT_FAIL_MAP, EXIT_FAIL_IP]

/-- The errno value the source compares with literally (`errno == 17`, EEXIST). -/
def EEXIST : Int := 17
/-- The errno of an insert into a table that has no room left (E2BIG). -/
def E2BIG : Int := 7
/-- The errno of a cursor that ran off the end of the table (ENOENT). -/
def ENOENT : Int := 2
/-- The errno of a refused pin or unlink (EPERM). -/
def EPERM : Int := 1
/-- The errno of a device name that no device has (ENODEV). -/
def ENODEV : Int := 19
/-- The errno of an insert the kernel has no memory for (ENOMEM). -/
def ENOMEM : Int := 12

/-- Arithmetic on `__u64` is modulo this. -/
def U64 : Nat := 2 ^ 64
/-- Arithmetic on `unsigned int` is modulo this. -/
def U32 : Nat := 2 ^ 32

/-- The value an `unsigned int` has once it is stored in an `int`. -/
def to_int (n : Nat) : Int :=
  if n % U32 < 2 ^ 31 then ((n % U32 : Nat) : Int) else ((n % U32 : Nat) : Int) - (U32 : Int)

/-! ## The table behind `map_fd[0]` -/

/-- The kernel table: `rows` lists the (key, per-CPU values) rows in the table's
iteration order, `max_entries` is its capacity. -/
structure Table where
  max_entries : Nat
  rows : List (Nat × List Nat)
  deriving DecidableEq, Repr

def Table.keys (t : Table) : List Nat := t.rows.map Prod.fst

/-- Modelled from the spec: get-all-CPU-values(key) of CounterTable Access, the
`bpf_map_lookup_elem` primitive of libbpf that is not in the source file. It gives
the per-CPU row stored under `key`, or nothing when the key is absent. -/
def bpf_map_lookup_elem (t : Table) (key : Nat) : Option (List Nat) :=
  (t.rows.find? (fun r => r.1 == key)).map Prod.snd

/-- Modelled from the spec: get-next-key(key) of CounterTable Access, the
`bpf_map_get_next_key` primitive of libbpf that is not in the source file: the
"next key after X" cursor protocol, as the bpf(2) manual page describes it. A key
that is in the table is followed by the key after it in iteration order, and the
last key by nothing (ENOENT); a key that is not in the table starts the iteration
at the first key. -/
def bpf_map_get_next_key (t : Table) (key : Nat) : Except Int Nat :=
  match t.keys.dropWhile (fun k => k != key) with
  | [] =>
    match t.keys with
    | [] => .error ENOENT
    | k :: _ => .ok k
  | _ :: [] => .error ENOENT
  | _ :: k :: _ => .ok k

/-- The rows with the row `r` put in at the position `place` of the iteration
order (at the end when the table has fewer rows). -/
def insert_at (rows : List (Nat × List Nat)) (place : Nat) (r : Nat × List Nat) :
    List (Nat × List Nat) :=
  rows.take place ++ r :: rows.drop place

/-- Modelled from the spec: insert-if-absent(key,value) of CounterTable Access, the
kernel side of `bpf_map_update_elem` called with `BPF_NOEXIST`, not in the source
file. `row` is the value as the kernel reads it, one counter per CPU; `place` is
where the new row lands in the iteration order, which the spec leaves unspecified;
`refusal` is the errno of any other underlying failure (0 when there is none). A
key that is present is rejected with errno 17; a table that is full rejects a new
key (the spec's "table full"); a refusal rejects it with its errno; otherwise the
row is added. -/
def bpf_map_update_elem_noexist (t : Table) (key : Nat) (row : List Nat) (place : Nat)
    (refusal : Int) : Except Int Table :=
  if key ∈ t.keys then .error EEXIST
  else if t.max_entries ≤ t.rows.length then .error E2BIG
  else if refusal ≠ 0 ∧ refusal ≠ EEXIST then .error refusal
  else .ok { t with rows := insert_at t.rows place (key, row) }

/-! ## Address parsing -/

/-- The scanning loop of the C library's `inet_pton` for `AF_INET`: `done` holds
the octets already finished, `cur` the octet being read (`*tp`). -/
def inet_pton4_loop : List Char → Bool → Nat → List Nat → Nat → Option (List Nat)
  | [], _, octets, done, cur => if octets < 4 then none else some (done ++ [cur])
  | ch :: rest, saw_digit, octets, done, cur =>
    if '0'.toNat ≤ ch.toNat ∧ ch.toNat ≤ '9'.toNat then
      let new := cur * 10 + (ch.toNat - '0'.toNat)
      if saw_digit ∧ cur = 0 then none
      else if new > 255 then none
      else if saw_digit then inet_pton4_loop rest true octets done new
      else if octets + 1 > 4 then none
      else inet_pton4_loop rest true (octets + 1) done new
    else if ch = '.' ∧ saw_digit then
      if octets = 4 then none
      else inet_pton4_loop rest false octets (done ++ [cur]) 0
    else none

/-- The four address bytes read as the `__u32` they are copied into (the bytes
are in network order; the host is little-endian). -/
def key_of_octets : List Nat → Nat
  | [] => 0
  | b :: bs => b + 256 * key_of_octets bs

/-- The call `inet_pton(AF_INET, ip_string, &key)` of the C library: the result
code (1 for a dotted quad, 0 otherwise) and the key written on success. -/
def inet_pton (ip_string : String) : Int × Nat :=
  match inet_pton4_loop ip_string.toList false 0 [] 0 with
  | some bytes => (1, key_of_octets bytes)
  | none => (0, 0)

/-! ## The process and its surroundings -/

/-- What the pseudo-file at `file_blacklist` refers to. -/
inductive Export where
  /-- An object left behind by an earlier run. -/
  | stale
  /-- The table of this run (`map_fd[0]`). -/
  | current
  deriving DecidableEq, Repr

/-- The lines the program writes (to stdout or stderr), one constructor per
`printf`/`fprintf`/`perror` site, carrying the values that are formatted. -/
inductive Msg where
  | interrupted (ifindex : Int) (ifname : Option String)
  | usage_text
  | clear_screen
  | debug_notice
  | stats (i : Nat)
  | key_line (key count : Nat)
  | lookup_failed
  | not_presentation (ip_string : String)
  | perror_inet_pton
  | add_failed (ip_string : String) (key : Nat) (errno : Int)
  | already_in_blacklist
  | newline
  | added (ip_string : String) (key : Nat)
  | dev_too_long
  | dev_unknown (errno : Int)
  | device (ifname : String) (ifindex : Int)
  | dev_missing
  | perror_setrlimit
  | bpf_log_buf
  | load_bpf_file_failed (errno : Int)
  | del_previous
  | cannot_cleanup (errno : Int)
  | cannot_pin (errno : Int)
  | exported
  | link_set_failed
  deriving DecidableEq, Repr

/-- The calls by which the program changes something outside itself. Reads of the
table (lookup, get-next-key) change nothing and are not recorded. -/
inductive Call where
  | set_link_xdp_fd (ifindex fd : Int)
  | bpf_map_update_elem (key value : Nat)
  | bpf_obj_pin
  | unlink
  | signal_SIGINT
  deriving DecidableEq, Repr

/-- The signals that end the process unless it handles them. -/
inductive Signal where
  | SIGINT
  | SIGTERM
  deriving DecidableEq, Repr

def Signal.signo : Signal → Int
  | .SIGINT => 2
  | .SIGTERM => 15

/-- The state the program runs in: what the system around it answers, the kernel
objects it works on, and its own globals. -/
structure World where
  /-- `bpf_num_possible_cpus()`. -/
  nr_cpus : Nat
  /-- The network devices: name and interface index. -/
  devices : List (String × Nat)
  /-- Whether the driver accepts an XDP program. -/
  xdp_ok : Bool
  /-- Whether `setrlimit` succeeds. -/
  rlimit_ok : Bool
  /-- Whether `load_bpf_file` succeeds. -/
  load_ok : Bool
  /-- The program descriptor `prog_fd[0]` after loading (0 when there is none). -/
  prog_fd0 : Nat
  /-- Whether the export directory accepts a pin. -/
  pin_ok : Bool
  /-- Whether the export path may be unlinked. -/
  unlink_ok : Bool
  /-- The errno with which the kernel refuses to add a row to a table that has
  room for it (0 when it does not refuse). -/
  update_errno : Int
  /-- The 8-byte words that lie behind the local `value` of `blacklist_add` in its
  stack frame. -/
  stack_words : List Nat
  /-- Where the rows to come land in the iteration order of the table, counted
  from its front, one entry for each insert (at the end when there is none). -/
  places : List Nat
  /-- How many primitive actions of the statement in progress are completed
  before the signal under study arrives. -/
  signal_after : Nat
  /-- The table behind `map_fd[0]`. -/
  table : Table
  /-- AttachmentState: the device index the XDP program is attached to, if any. -/
  xdp : Option Int
  /-- What the export path `file_blacklist` holds. -/
  pinned : Option Export
  /-- The global `ifindex`. -/
  ifindex : Int
  /-- The global `ifname` (NULL until `--dev` is read). -/
  ifname : Option String
  /-- The C library's `errno`. -/
  errno : Int
  /-- Whether `int_exit` is installed for SIGINT. -/
  sigint_handler : Bool
  /-- The `static unsigned int i` of `stats_print_headers`. -/
  stats_i : Nat
  /-- Everything written so far. -/
  out : List Msg
  /-- Every state-changing call made so far. -/
  calls : List Call
  /-- The signals delivered to the process so far. -/
  signals : List Signal
  deriving DecidableEq, Repr

/-- The state at process start: the globals hold their initialisers, nothing has
been written or called, no signal has been delivered. -/
def World.start (w : World) : World :=
  { w with ifindex := -1, ifname := none, errno := 0, sigint_handler := false,
           stats_i := 0, out := [], calls := [], signals := [] }

/-- How a piece of the program ends: it returns to its caller, the process exits
with a code, or the process is killed by a signal it does not handle. -/
inductive Run (α : Type) where
  | ret (a : α) (w : World)
  | exit (code : Int) (w : World)
  | killed (signo : Int) (w : World)
  deriving DecidableEq, Repr

/-- What follows a piece that has ended: the rest runs when it returned, and
nothing runs when the process is gone. -/
def Run.bind {α β : Type} (r : Run α) (f : α → World → Run β) : Run β :=
  match r with
  | .ret a w1 => f a w1
  | .exit code w1 => .exit code w1
  | .killed signo w1 => .killed signo w1

/-- A piece of the program, as the tree of its primitive actions: it is done and
returns `a`; it calls `exit`; it reads the state to decide how to go on; or it
performs one action `t` on the state (a system call, one `printf`, one store to a
global) and goes on with what the action answers. -/
inductive Proc (α : Type) : Type where
  | pure (a : α)
  | exit (code : Int)
  | get (k : World → Proc α)
  | act (t : World → Int × World) (k : Int → Proc α)

def Proc.bind {α β : Type} : Proc α → (α → Proc β) → Proc β
  | .pure a, f => f a
  | .exit code, _ => .exit code
  | .get k, f => .get (fun w => (k w).bind f)
  | .act t k, f => .act t (fun r => (k r).bind f)

instance : Monad Proc where
  pure := Proc.pure
  bind := Proc.bind

/-- A piece of the program run from the state `w` with no signal arriving. -/
def Proc.run {α : Type} : Proc α → World → Run α
  | .pure a, w => .ret a w
  | .exit code, w => .exit code w
  | .get k, w => (k w).run w
  | .act t k, w => (k (t w).1).run (t w).2

instance {α : Type} : CoeFun (Proc α) (fun _ => World → Run α) where
  coe := Proc.run

def get_world : Proc World := .get (fun w => .pure w)

/-- One primitive action with its answer. -/
def Proc.step (t : World → Int × World) : Proc Int := .act t (fun r => .pure r)

/-- One primitive action that answers nothing. -/
def Proc.modify (f : World → World) : Proc Unit := .act (fun w => (0, f w)) (fun _ => .pure ())

/-- One `printf`, `fprintf(stderr, ...)` or `perror`. -/
def print (m : Msg) : Proc Unit := Proc.modify (fun w => { w with out := w.out ++ [m] })

/-- The C library's `exit`, and `return` from `main`. -/
def exit {α : Type} (code : Int) : Proc α := .exit code

/-- The C library's `sleep`: nothing the program can see changes. -/
def sleep (_seconds : Nat) : Proc Unit := Proc.modify (fun w => w)

/-- The static `verbose` of the source, never assigned after its initialiser. -/
def verbose : Int := 1

/-- Modelled from the spec: setAttachment(deviceId, programHandleOrNone), the
`set_link_xdp_fd` of bpf_load.c that is not in the source file. With a program
descriptor it binds the program to the device and fails (negative result) when
no device has that index or the driver refuses; with -1 it detaches. -/
def set_link_xdp_fd (ifindex fd : Int) : Proc Int := Proc.step fun w =>
  let w1 := { w with calls := w.calls ++ [Call.set_link_xdp_fd ifindex fd] }
  if fd < 0 then
    (0, { w1 with xdp := if w.xdp = some ifindex then none else w.xdp })
  else if w.xdp_ok = true ∧ ifindex ∈ w.devices.map (fun d => (d.2 : Int)) then
    (0, { w1 with xdp := some ifindex })
  else
    (-1, w1)

/-- The value of a row as the kernel reads it from the address the caller gives:
one 8-byte word per CPU. The caller of the source gives the address of one
`__u64`, so the first word is that `value` and the others are the words behind it
in memory (a word that `behind` does not list reads as 0). -/
def percpu_words (nr_cpus : Nat) (value : Nat) (behind : List Nat) : List Nat :=
  (List.range nr_cpus).map (fun i => (value :: behind).getD i 0)

/-- Modelled from the spec: the call `bpf_map_update_elem(map_fd[0], &key, &value,
BPF_NOEXIST)` of libbpf, not in the source file: the result code, with `errno` set
on failure. The spec's CounterTable holds one 64-bit counter per CPU for a key and
userspace sees an array of that many values, so the kernel reads that many words
from the address it is given; the source gives it the address of its one `__u64`
(lines 159, 175), whose value is the first word. -/
def bpf_map_update_elem (key value : Nat) : Proc Int := Proc.step fun w =>
  let w1 := { w with calls := w.calls ++ [Call.bpf_map_update_elem key value] }
  match bpf_map_update_elem_noexist w.table key
      (percpu_words w.nr_cpus value w.stack_words)
      (w.places.headD w.table.rows.length) w.update_errno with
  | .ok t => (0, { w1 with table := t, places := w.places.tail })
  | .error e => (-1, { w1 with errno := e })

/-- Modelled from the spec: the pin of exportTable, `bpf_obj_pin(map_fd[0],
file_blacklist)` of libbpf, not in the source file. It fails with errno 17 when
the path already holds an object and with another errno when the directory
refuses; otherwise the path now holds this run's table. -/
def bpf_obj_pin : Proc Int := Proc.step fun w =>
  let w1 := { w with calls := w.calls ++ [Call.bpf_obj_pin] }
  if w.pinned.isSome then (-1, { w1 with errno := EEXIST })
  else if w.pin_ok then (0, { w1 with pinned := some Export.current })
  else (-1, { w1 with errno := EPERM })

/-- The system call `unlink(file_blacklist)`. -/
def unlink : Proc Int := Proc.step fun w =>
  let w1 := { w with calls := w.calls ++ [Call.unlink] }
  if w.pinned.isSome ∧ w.unlink_ok = true then (0, { w1 with pinned := none })
  else (-1, { w1 with errno := if w.pinned.isSome then EPERM else ENOENT })

/-- The C library's `if_nametoindex`: the index of the named device, 0 if none. -/
def if_nametoindex (w : World) (name : String) : Nat :=
  match w.devices.find? (fun d => d.1 == name) with
  | some d => d.2
  | none => 0

/-! ## The functions of the source -/

/-- The record `struct stats_key`. -/
structure stats_key where
  key : Nat
  value_sum : Nat
  deriving DecidableEq, Repr

/-- `int_exit` (lines 38-46). -/
def int_exit (_sig : Int) : Proc Unit := do
  let w ← get_world
  print (.interrupted w.ifindex w.ifname)
  if w.ifindex > -1 then
    let _ ← set_link_xdp_fd w.ifindex (-1)
    exit 0
  else
    exit 0

/-- `usage` (lines 63-82). -/
def usage : Proc Unit := print .usage_text

/-- `stats_print_headers` (lines 84-99). -/
def stats_print_headers : Proc Unit := do
  print .debug_notice
  Proc.modify (fun w => { w with stats_i := (w.stats_i + 1) % U32 })
  let w ← get_world
  print (.stats w.stats_i)

/-- `stats_print` (lines 106-115). -/
def stats_print (record : stats_key) : Proc Unit :=
  let key := record.key
  let count := record.value_sum
  if count ≠ 0 then print (.key_line key count) else Proc.pure ()

/-- The summing loop of `stats_collect` (lines 129-131) over `values[0..nr_cpus)`.
A slot the lookup did not fill reads as 0; in a well-formed table the row fills
every slot. -/
def sum_values (nr_cpus : Nat) (values : List Nat) : Nat :=
  (List.range nr_cpus).foldl (fun sum i => (sum + values.getD i 0) % U64) 0

/-- `stats_collect` (lines 116-136): the result and the record as it is left. -/
def stats_collect (record : stats_key) (key : Nat) : Proc (Bool × stats_key) := do
  let w ← get_world
  let nr_cpus := w.nr_cpus
  match bpf_map_lookup_elem w.table key with
  | none =>
    print .lookup_failed
    pure (false, record)
  | some values =>
    let sum := sum_values nr_cpus values
    pure (true, { record with value_sum := sum, key := key })

/-- The `while` loop of `stats_poll` (lines 147-154), run for at most `fuel`
rounds; the result says whether the loop ended (get-next-key failed) within them. -/
def stats_poll_loop : Nat → Nat → Proc Bool
  | 0, _ => Proc.pure false
  | fuel + 1, key => do
    let w ← get_world
    match bpf_map_get_next_key w.table key with
    | .error _ => pure true
    | .ok next_key =>
      let record : stats_key := { key := 0, value_sum := 0 }
      let r ← stats_collect record next_key
      (if r.1 then stats_print r.2 else Proc.pure ())
      stats_poll_loop fuel next_key

/-- `stats_poll` (lines 138-155). -/
def stats_poll (fuel : Nat) : Proc Bool := do
  let key := 0
  print .clear_screen
  stats_print_headers
  stats_poll_loop fuel key

/-- `blacklist_add` (lines 157-190). -/
def blacklist_add (ip_string : String) : Proc Unit := do
  let value := 0
  let r := inet_pton ip_string
  let key := r.2
  if r.1 ≤ 0 then
    (if r.1 = 0 then print (.not_presentation ip_string) else print .perror_inet_pton)
    exit EXIT_FAIL_IP
  else
    let res ← bpf_map_update_elem key value
    if res ≠ 0 then
      let w ← get_world
      print (.add_failed ip_string key w.errno)
      if w.errno = 17 then
        print .already_in_blacklist
      else
        print .newline
        exit EXIT_FAIL_KEY_UPDATE
    else if verbose ≠ 0 then
      print (.added ip_string key)
    else
      pure ()

/-- One result of `getopt_long(argc, argv, "hi:", long_options, &longindex)`:
the option character it returns and `optarg`. -/
structure Opt where
  opt : Char
  optarg : String
  deriving DecidableEq, Repr

/-- The option loop of `main` (lines 203-229) over the successive results of
`getopt_long`; `goto error` and the `default` case end in `return
EXIT_FAIL_OPTION`. -/
def main_options : List Opt → Proc Unit
  | [] => Proc.pure ()
  | o :: rest =>
    if o.opt = 'd' then
      if o.optarg.utf8ByteSize ≥ IF_NAMESIZE then do
        print .dev_too_long
        usage
        exit EXIT_FAIL_OPTION
      else do
        let w ← get_world
        let n := if_nametoindex w o.optarg
        Proc.modify (fun w => { w with ifname := some o.optarg, ifindex := to_int n,
                                       errno := if n = 0 then ENODEV else w.errno })
        if to_int n = 0 then
          print (.dev_unknown ENODEV)
          usage
          exit EXIT_FAIL_OPTION
        else
          (if verbose ≠ 0 then print (.device o.optarg (to_int n)) else Proc.pure ())
          main_options rest
    else do
      usage
      exit EXIT_FAIL_OPTION

/-- The required-option check of `main` (lines 231-235). -/
def main_required : Proc Unit := do
  let w ← get_world
  if w.ifindex = -1 then
    print .dev_missing
    usage
    exit EXIT_FAIL_OPTION
  else
    pure ()

/-- The resource limit and the loading of the kernel program in `main` (lines
238-251). -/
def main_load : Proc Unit := do
  let w ← get_world
  if ¬ w.rlimit_ok then
    print .perror_setrlimit
    exit 1
  else if ¬ w.load_ok then
    print .bpf_log_buf
    exit 1
  else if w.prog_fd0 = 0 then
    print (.load_bpf_file_failed w.errno)
    exit 1
  else
    pure ()

/-- The export step of `main` (lines 253-277). -/
def main_export : Proc Unit := do
  let r ← bpf_obj_pin
  (if r ≠ 0 then do
    let w ← get_world
    if w.errno = 17 then
      print .del_previous
      let u ← unlink
      if u < 0 then
        let w1 ← get_world
        print (.cannot_cleanup w1.errno)
        exit EXIT_FAIL_MAP
      else
        pure ()
    else
      print (.cannot_pin w.errno)
      exit EXIT_FAIL_MAP
  else pure ())
  print .exported

/-- The call `signal(SIGINT, int_exit)`. -/
def signal_SIGINT : Proc Unit := Proc.modify fun w =>
  { w with sigint_handler := true, calls := w.calls ++ [Call.signal_SIGINT] }

/-- The attach step of `main` (lines 279-285). -/
def main_attach : Proc Unit := do
  signal_SIGINT
  let w ← get_world
  let r ← set_link_xdp_fd w.ifindex w.prog_fd0
  if r < 0 then
    print .link_set_failed
    exit EXIT_FAIL_XDP
  else
    pure ()

/-- The local `interval` of `main`. -/
def interval : Nat := 2

/-- What `main` does after the attach (lines 287-295), statement by statement:
the three seeding calls with their sleep, then the endless alternation of
`stats_poll()` and `sleep(interval)`. A poll is given as many rounds as the
table has rows, plus the one that finds the end. -/
def main_step : Nat → Proc Unit
  | 0 => blacklist_add "192.2.1.3"
  | 1 => blacklist_add "192.2.1.3"
  | 2 => sleep 10
  | 3 => blacklist_add "198.18.50.3"
  | n + 4 =>
    if n % 2 = 0 then do
      let w ← get_world
      let _ ← stats_poll (w.table.rows.length + 1)
      pure ()
    else sleep interval

/-- The first `n` statements of `main` after the attach, starting at statement
`pc`. -/
def main_run : Nat → Nat → Proc Unit
  | 0, _ => Proc.pure ()
  | n + 1, pc => do
    main_step pc
    main_run n (pc + 1)

/-- The part of `main` up to and including the attach (lines 202-285); `opts`
are the results of `getopt_long`. It returns only when the attach succeeded. -/
def main_startup (opts : List Opt) : Proc Unit := do
  main_options opts
  main_required
  main_load
  main_export
  main_attach

/-! ## Signals -/

/-- Delivery of a signal to the process in the state `w`: the handler runs if one
is installed for that signal (the program installs one for SIGINT only), and the
interrupted code resumes if the handler returns; otherwise the default action
kills the process. -/
def deliver {α : Type} (sig : Signal) (resume : World → Run α) (w : World) : Run α :=
  let w0 := { w with signals := w.signals ++ [sig] }
  match sig with
  | .SIGINT =>
    if w.sigint_handler then (int_exit sig.signo w0).bind (fun _ w1 => resume w1)
    else .killed sig.signo w0
  | .SIGTERM => .killed sig.signo w0

/-- A piece of the program run from the state `w` while the signal `sig` is on its
way: the signal is delivered before the piece's primitive action number `after`
(counted from 0; a call of `exit` counts as one), or right after the piece when it
has fewer actions. -/
def Proc.run_until {α : Type} (sig : Signal) : Nat → Proc α → World → Run α
  | _, .pure a, w => deliver sig (fun w1 => .ret a w1) w
  | 0, .exit code, w => deliver sig (fun w1 => .exit code w1) w
  | _ + 1, .exit code, w => .exit code w
  | after, .get k, w => Proc.run_until sig after (k w) w
  | 0, .act t k, w => deliver sig (fun w1 => (k (t w1).1).run (t w1).2) w
  | after + 1, .act t k, w => Proc.run_until sig after (k (t w).1) (t w).2

/-- What happens to the running process at the moment under study, when it is
about to execute the statement `pc` of `main`: nothing, or a signal arrives while
it executes that statement, after `signal_after` of its primitive actions. -/
def arrival (sig : Option Signal) (pc : Nat) (w : World) : Run Unit :=
  match sig with
  | none => .ret () w
  | some s => (main_step pc).run_until s w.signal_after w

/-- `main` (lines 192-298) from the option loop on. After the attach it executes
`n` statements, and then the signal `sig`, if there is one, arrives during the
next statement. The result `ret` means the process is still running (the loop of
`main` has no end). -/
def main (opts : List Opt) (n : Nat) (sig : Option Signal) (w : World) : Run Unit :=
  (main_startup opts w).bind fun _ w1 =>
    (main_run n 0 w1).bind fun _ w2 => arrival sig n w2

/-- The state in which a piece of the program ends. -/
def Run.world {α : Type} : Run α → World
  | .ret _ w => w
  | .exit _ w => w
  | .killed _ w => w

/-- The exit code, when the process ends by exiting. -/
def Run.exit_code {α : Type} : Run α → Option Int
  | .exit code _ => some code
  | _ => none

/-! ## What a poll is expected to show -/

/-- The line `stats_print` writes for a row, if it writes one: the key with the
sum of the row's counters, unless that sum is zero. -/
def render (nr_cpus : Nat) (r : Nat × List Nat) : Option Msg :=
  if sum_values nr_cpus r.2 ≠ 0 then some (Msg.key_line r.1 (sum_values nr_cpus r.2))
  else none

/-- The rows that follow the row of `key` in iteration order. -/
def rows_after (key : Nat) : List (Nat × List Nat) → List (Nat × List Nat)
  | [] => []
  | r :: rs => if r.1 = key then rs else rows_after key rs

/-- The rows a cursor that starts at `key` walks over: the rows after `key` when
`key` is in the table, all rows when it is not. -/
def cursor_rows (key : Nat) (t : Table) : List (Nat × List Nat) :=
  if key ∈ t.keys then rows_after key t.rows else t.rows

/-! ## Sample states -/

/-- A machine with two CPUs and the device eth0, an empty table that has room,
and nothing at the export path; the words behind `value` on the stack are not
zero. -/
def sample_world : World :=
  { nr_cpus := 2, devices := [("eth0", 2)], xdp_ok := true, rlimit_ok := true,
    load_ok := true, prog_fd0 := 5, pin_ok := true, unlink_ok := true,
    update_errno := 0, stack_words := [94654922851863, 140726907871808, 4198944],
    places := [], signal_after := 0,
    table := { max_entries := 16, rows := [] }, xdp := none, pinned := none,
    ifindex := -1, ifname := none, errno := 0, sigint_handler := false,
    stats_i := 0, out := [], calls := [], signals := [] }

/-- The sample machine with a table that has no room for a new row. -/
def full_world : World :=
  { sample_world with table := { max_entries := 1, rows := [(7, [0, 0])] } }

/-- The sample machine with an export of an earlier run still at the export path. -/
def stale_world : World :=
  { sample_world with pinned := some Export.stale }

/-- The sample machine with three rows in the table, the middle one under key 0;
every row has been hit. -/
def key_zero_world : World :=
  { sample_world with
    table := { max_entries := 16, rows := [(50397888, [1, 0]), (0, [5, 2]), (53613254, [0, 4])] } }

/-- A machine with four CPUs whose table has a row with the counters 3, 0, 5, 0
and a row whose counters add up to more than 64 bits hold. -/
def four_cpu_world : World :=
  { sample_world with
    nr_cpus := 4,
    table := { max_entries := 16,
               rows := [(50397888, [3, 0, 5, 0]), (53613254, [2 ^ 64 - 1, 0, 2, 0])] } }

/-- The sample machine with a row that was hit and a row that never was. -/
def quiet_world : World :=
  { sample_world with
    table := { max_entries := 16, rows := [(50397888, [3, 2]), (53613254, [0, 0])] } }

/-- The sample machine when the kernel program cannot be loaded. -/
def no_load_world : World := { sample_world with load_ok := false }

/-- The sample machine when the export directory refuses the pin. -/
def no_pin_world : World := { sample_world with pin_ok := false }

/-- The sample machine with a stale export that cannot be unlinked. -/
def no_unlink_world : World := { stale_world with unlink_ok := false }

/-- The sample machine after `--dev eth0` was read, with a driver that refuses
XDP programs. -/
def no_xdp_world : World := { sample_world with xdp_ok := false, ifindex := 2 }

/-- The sample machine with a kernel that has no memory for a new row. -/
def no_memory_world : World := { sample_world with update_errno := ENOMEM }

/-- The sample machine with a table of two rows, where the kernel puts the next
row between them. -/
def placed_world : World :=
  { sample_world with
    places := [1],
    table := { max_entries := 16, rows := [(7, [0, 0]), (9, [4, 0])] } }

/-- The sample machine when the signal arrives after one primitive action of the
statement in progress. -/
def mid_statement_world : World := { sample_world with signal_after := 1 }

/-- The sample machine when the signal arrives after four primitive actions of
the statement in progress. -/
def mid_poll_world : World := { sample_world with signal_after := 4 }

/-- The options of a run started with `--dev eth0`. -/
def sample_opts : List Opt := [{ opt := 'd', optarg := "eth0" }]

/-! ## Invariants -/

/-- The table is well formed for a machine with `nr_cpus` CPUs: no key occurs
twice and every row has one value per CPU. -/
def Table.wf (nr_cpus : Nat) (t : Table) : Prop :=
  t.keys.Nodup ∧ ∀ r ∈ t.rows, r.2.length = nr_cpus

/-- Whether a call is a detach: `set_link_xdp_fd` with a negative descriptor. -/
def Call.is_detach : Call → Bool
  | .set_link_xdp_fd _ fd => decide (fd < 0)
  | _ => false

/-- No detach has been called so far. -/
def no_detach (w : World) : Prop := ∀ c ∈ w.calls, c.is_detach = false

instance (w : World) : Decidable (no_detach w) := by
  unfold no_detach
  infer_instance

/-- From `w` to `w2` the device, its attachment and the SIGINT handler have
stayed as they were, no signal has been delivered, and no detach has been added
to the calls. -/
def steady (w w2 : World) : Prop :=
  w2.ifindex = w.ifindex ∧ w2.ifname = w.ifname ∧ w2.xdp = w.xdp ∧
  w2.sigint_handler = w.sigint_handler ∧ w2.signals = w.signals ∧
  (no_detach w → no_detach w2)

/-- The program is attached to the device `ifindex`, `int_exit` is installed,
and no detach has been called. -/
def attached_inv (w : World) : Prop :=
  w.xdp = some w.ifindex ∧ w.sigint_handler = true ∧ -1 < w.ifindex ∧ no_detach w

/-- Every primitive action of the piece leaves the device, its attachment, the
handler and the delivered signals as they are and is not a detach. -/
def Proc.steady_acts {α : Type} : Proc α → Prop
  | .pure _ => True
  | .exit _ => True
  | .get k => ∀ w, (k w).steady_acts
  | .act t k => (∀ w, steady w (t w).2) ∧ ∀ r, (k r).steady_acts

/-- The state `w2` differs from `w` at most in what has been written and in the
counter of `stats_print_headers`. -/
def only_output (w w2 : World) : Prop :=
  w2 = { w with out := w2.out, stats_i := w2.stats_i }

/-- The state `w2` differs from `w` at most in the globals the option loop sets
and in what has been written. -/
def only_globals (w w2 : World) : Prop :=
  w2 = { w with ifname := w2.ifname, ifindex := w2.ifindex, errno := w2.errno, out := w2.out }

/-- The line `m` is one a poll of the table `t` may write in its loop: the notice
of a failed lookup, or the line of a key that is in the table, with the sum of its
row, that sum not being zero. -/
def poll_line (nr_cpus : Nat) (t : Table) (m : Msg) : Prop :=
  m = Msg.lookup_failed ∨
  ∃ key values, bpf_map_lookup_elem t key = some values ∧
    sum_values nr_cpus values ≠ 0 ∧ m = Msg.key_line key (sum_values nr_cpus values)

/-- A piece of the program ended by returning or by the table-update exit of
`blacklist_add`. -/
def Run.update_end {α : Type} : Run α → Prop
  | .ret _ _ => True
  | .exit code _ => code = EXIT_FAIL_KEY_UPDATE
  | .killed _ _ => False

/-! ## How the pieces compose -/

theorem bind_apply {α β : Type} (m : Proc α) (f : α → Proc β) (w : World) :
    (m >>= f) w = (m w).bind (fun a w1 => f a w1) := by
  show (Proc.bind m f).run w = (m.run w).bind (fun a w1 => (f a).run w1)
  induction m generalizing w with
  | pure a => rfl
  | exit code => rfl
  | get k ih => exact ih w w
  | act t k ih => exact ih (t w).1 (t w).2

theorem pure_apply {α : Type} (a : α) (w : World) :
    (pure a : Proc α) w = Run.ret a w := rfl

theorem proc_pure_apply {α : Type} (a : α) (w : World) :
    (Proc.pure a : Proc α) w = Run.ret a w := rfl

theorem exit_apply {α : Type} (code : Int) (w : World) :
    (exit code : Proc α) w = Run.exit code w := rfl

theorem get_world_apply (w : World) : get_world w = Run.ret w w := rfl

theorem step_apply (t : World → Int × World) (w : World) :
    Proc.step t w = Run.ret (t w).1 (t w).2 := rfl

theorem modify_apply (f : World → World) (w : World) :
    Proc.modify f w = Run.ret () (f w) := rfl

theorem print_apply (m : Msg) (w : World) :
    print m w = Run.ret () { w with out := w.out ++ [m] } := rfl

theorem sleep_apply (seconds : Nat) (w : World) : sleep seconds w = Run.ret () w := rfl

@[simp]
theorem ret_bind {α β : Type} (a : α) (w : World) (f : α → World → Run β) :
    (Run.ret a w).bind f = f a w := rfl

@[simp]
theorem exit_bind {α β : Type} (code : Int) (w : World) (f : α → World → Run β) :
    (Run.exit code w : Run α).bind f = Run.exit code w := rfl

@[simp]
theorem killed_bind {α β : Type} (signo : Int) (w : World) (f : α → World → Run β) :
    (Run.killed signo w : Run α).bind f = Run.killed signo w := rfl

/-! ## The table calls -/

theorem update_present (key value : Nat) (w : World) (hk : key ∈ w.table.keys) :
    bpf_map_update_elem key value w = Run.ret (-1)
      { w with calls := w.calls ++ [Call.bpf_map_update_elem key value], errno := EEXIST } := by
  simp [bpf_map_update_elem, step_apply, bpf_map_update_elem_noexist, hk]

theorem update_full (key value : Nat) (w : World) (hk : key ∉ w.table.keys)
    (hfull : w.table.max_entries ≤ w.table.rows.length) :
    bpf_map_update_elem key value w = Run.ret (-1)
      { w with calls := w.calls ++ [Call.bpf_map_update_elem key value], errno := E2BIG } := by
  simp [bpf_map_update_elem, step_apply, bpf_map_update_elem_noexist, hk, hfull]

theorem update_refused (key value : Nat) (w : World) (hk : key ∉ w.table.keys)
    (hroom : w.table.rows.length < w.table.max_entries)
    (hr : w.update_errno ≠ 0 ∧ w.update_errno ≠ 17) :
    bpf_map_update_elem key value w = Run.ret (-1)
      { w with calls := w.calls ++ [Call.bpf_map_update_elem key value],
               errno := w.update_errno } := by
  have h2 : ¬ w.table.max_entries ≤ w.table.rows.length := not_le.mpr hroom
  simp [bpf_map_update_elem, step_apply, bpf_map_update_elem_noexist, hk, h2, hr.1, hr.2,
    EEXIST]

theorem update_inserted (key value : Nat) (w : World) (hk : key ∉ w.table.keys)
    (hroom : w.table.rows.length < w.table.max_entries)
    (hr : w.update_errno = 0 ∨ w.update_errno = 17) :
    bpf_map_update_elem key value w = Run.ret 0
      { w with
        calls := w.calls ++ [Call.bpf_map_update_elem key value],
        table := { w.table with
          rows := insert_at w.table.rows (w.places.headD w.table.rows.length)
                    (key, percpu_words w.nr_cpus value w.stack_words) },
        places := w.places.tail } := by
  have h2 : ¬ w.table.max_entries ≤ w.table.rows.length := not_le.mpr hroom
  have h3 : ¬ (w.update_errno ≠ 0 ∧ w.update_errno ≠ EEXIST) := by
    intro h
    rcases hr with hr | hr
    · exact h.1 hr
    · exact h.2 hr
  simp only [bpf_map_update_elem, step_apply, bpf_map_update_elem_noexist, hk, h2, h3,
    if_false]

/-! ## blacklist_add -/

theorem blacklist_add_rejected (ip_string : String) (w : World)
    (h : (inet_pton ip_string).1 ≤ 0) :
    blacklist_add ip_string w = Run.exit EXIT_FAIL_IP
      { w with out := w.out ++ [if (inet_pton ip_string).1 = 0
                                then Msg.not_presentation ip_string
                                else Msg.perror_inet_pton] } := by
  simp only [blacklist_add, h, if_true]
  by_cases h0 : (inet_pton ip_string).1 = 0 <;>
    simp [h0, bind_apply, print_apply, exit_apply, Run.bind]

theorem blacklist_add_inserted (ip_string : String) (w : World)
    (hp : 0 < (inet_pton ip_string).1)
    (hk : (inet_pton ip_string).2 ∉ w.table.keys)
    (hroom : w.table.rows.length < w.table.max_entries)
    (hr : w.update_errno = 0 ∨ w.update_errno = 17) :
    blacklist_add ip_string w = Run.ret ()
      { w with
        calls := w.calls ++ [Call.bpf_map_update_elem (inet_pton ip_string).2 0],
        table := { w.table with
          rows := insert_at w.table.rows (w.places.headD w.table.rows.length)
                    ((inet_pton ip_string).2, percpu_words w.nr_cpus 0 w.stack_words) },
        places := w.places.tail,
        out := w.out ++ [Msg.added ip_string (inet_pton ip_string).2] } := by
  have h1 : ¬ (inet_pton ip_string).1 ≤ 0 := not_le.mpr hp
  simp only [blacklist_add, h1, if_false, bind_apply, update_inserted _ _ w hk hroom hr,
    ret_bind]
  simp [verbose, print_apply]

theorem blacklist_add_present (ip_string : String) (w : World)
    (hp : 0 < (inet_pton ip_string).1)
    (hk : (inet_pton ip_string).2 ∈ w.table.keys) :
    blacklist_add ip_string w = Run.ret ()
      { w with
        errno := EEXIST,
        calls := w.calls ++ [Call.bpf_map_update_elem (inet_pton ip_string).2 0],
        out := w.out ++ [Msg.add_failed ip_string (inet_pton ip_string).2 EEXIST,
                         Msg.already_in_blacklist] } := by
  have h1 : ¬ (inet_pton ip_string).1 ≤ 0 := not_le.mpr hp
  simp only [blacklist_add, h1, if_false, bind_apply, update_present _ _ w hk, ret_bind]
  simp [bind_apply, get_world_apply, print_apply, ret_bind, EEXIST]

theorem blacklist_add_failed (ip_string : String) (w : World) (e : Int)
    (hp : 0 < (inet_pton ip_string).1) (he : e ≠ 17)
    (hupd : bpf_map_update_elem (inet_pton ip_string).2 0 w = Run.ret (-1)
      { w with calls := w.calls ++ [Call.bpf_map_update_elem (inet_pton ip_string).2 0],
               errno := e }) :
    blacklist_add ip_string w = Run.exit EXIT_FAIL_KEY_UPDATE
      { w with
        errno := e,
        calls := w.calls ++ [Call.bpf_map_update_elem (inet_pton ip_string).2 0],
        out := w.out ++ [Msg.add_failed ip_string (inet_pton ip_string).2 e,
                         Msg.newline] } := by
  have h1 : ¬ (inet_pton ip_string).1 ≤ 0 := not_le.mpr hp
  simp only [blacklist_add, h1, if_false, bind_apply, hupd, ret_bind]
  simp [bind_apply, get_world_apply, print_apply, ret_bind, exit_apply, he]

theorem blacklist_add_full (ip_string : String) (w : World)
    (hp : 0 < (inet_pton ip_string).1)
    (hk : (inet_pton ip_string).2 ∉ w.table.keys)
    (hfull : w.table.max_entries ≤ w.table.rows.length) :
    blacklist_add ip_string w = Run.exit EXIT_FAIL_KEY_UPDATE
      { w with
        errno := E2BIG,
        calls := w.calls ++ [Call.bpf_map_update_elem (inet_pton ip_string).2 0],
        out := w.out ++ [Msg.add_failed ip_string (inet_pton ip_string).2 E2BIG,
                         Msg.newline] } :=
  blacklist_add_failed ip_string w E2BIG hp (by decide) (update_full _ _ w hk hfull)

theorem blacklist_add_refused (ip_string : String) (w : World)
    (hp : 0 < (inet_pton ip_string).1)
    (hk : (inet_pton ip_string).2 ∉ w.table.keys)
    (hroom : w.table.rows.length < w.table.max_entries)
    (hr : w.update_errno ≠ 0 ∧ w.update_errno ≠ 17) :
    blacklist_add ip_string w = Run.exit EXIT_FAIL_KEY_UPDATE
      { w with
        errno := w.update_errno,
        calls := w.calls ++ [Call.bpf_map_update_elem (inet_pton ip_string).2 0],
        out := w.out ++ [Msg.add_failed ip_string (inet_pton ip_string).2 w.update_errno,
                         Msg.newline] } :=
  blacklist_add_failed ip_string w w.update_errno hp hr.2 (update_refused _ _ w hk hroom hr)

/-! ## stats_collect -/

theorem foldl_sum_values (values : List Nat) (n : Nat) :
    (List.range n).foldl (fun sum i => (sum + values.getD i 0) % U64) 0
      = (values.take n).sum % U64 := by
  induction n with
  | zero => simp
  | succ n ih =>
    rw [List.range_succ, List.foldl_append, ih, List.take_succ, List.sum_append]
    simp only [List.foldl_cons, List.foldl_nil, List.getD_eq_getElem?_getD]
    cases h : values[n]? <;> simp [Nat.add_mod]

theorem sum_values_eq (values : List Nat) (n : Nat) (h : values.length = n) :
    sum_values n values = values.sum % U64 := by
  unfold sum_values
  rw [foldl_sum_values, ← h, List.take_length]

theorem stats_collect_found (record : stats_key) (key : Nat) (w : World)
    (values : List Nat) (h : bpf_map_lookup_elem w.table key = some values) :
    stats_collect record key w
      = Run.ret (true, { key := key, value_sum := sum_values w.nr_cpus values }) w := by
  simp [stats_collect, bind_apply, get_world_apply, ret_bind, h, pure_apply]

theorem stats_collect_missing (record : stats_key) (key : Nat) (w : World)
    (h : bpf_map_lookup_elem w.table key = none) :
    stats_collect record key w
      = Run.ret (false, record) { w with out := w.out ++ [Msg.lookup_failed] } := by
  simp [stats_collect, bind_apply, get_world_apply, ret_bind, h, pure_apply, print_apply]

/-! ## The cursor -/

theorem dropWhile_skip (key : Nat) (pk l : List Nat) (h : key ∉ pk) :
    (pk ++ l).dropWhile (fun k => k != key) = l.dropWhile (fun k => k != key) := by
  induction pk with
  | nil => rfl
  | cons a pk ih =>
    have ha : a ≠ key := fun e => h (by simp [e])
    have hk : key ∉ pk := fun e => h (by simp [e])
    simp [List.dropWhile_cons, ha, ih hk]

theorem dropWhile_absent (key : Nat) (l : List Nat) (h : key ∉ l) :
    l.dropWhile (fun k => k != key) = [] := by
  have := dropWhile_skip key l [] h
  simpa using this

theorem get_next_key_absent_nil (t : Table) (key : Nat) (h : t.rows = []) :
    bpf_map_get_next_key t key = .error ENOENT := by
  simp [bpf_map_get_next_key, Table.keys, h]

theorem get_next_key_absent_cons (t : Table) (key : Nat) (r : Nat × List Nat)
    (rs : List (Nat × List Nat)) (h : t.rows = r :: rs) (hk : key ∉ t.keys) :
    bpf_map_get_next_key t key = .ok r.1 := by
  unfold bpf_map_get_next_key
  rw [dropWhile_absent key t.keys hk]
  simp [Table.keys, h]

theorem get_next_key_last (t : Table) (key : Nat) (v : List Nat)
    (pre : List (Nat × List Nat)) (h : t.rows = pre ++ [(key, v)])
    (hk : key ∉ pre.map Prod.fst) :
    bpf_map_get_next_key t key = .error ENOENT := by
  unfold bpf_map_get_next_key
  have : t.keys = pre.map Prod.fst ++ [key] := by simp [Table.keys, h]
  rw [this, dropWhile_skip key _ _ hk]
  simp [List.dropWhile_cons]

theorem get_next_key_mid (t : Table) (key : Nat) (v : List Nat) (r : Nat × List Nat)
    (pre suf : List (Nat × List Nat)) (h : t.rows = pre ++ (key, v) :: r :: suf)
    (hk : key ∉ pre.map Prod.fst) :
    bpf_map_get_next_key t key = .ok r.1 := by
  unfold bpf_map_get_next_key
  have : t.keys = pre.map Prod.fst ++ key :: r.1 :: suf.map Prod.fst := by
    simp [Table.keys, h]
  rw [this, dropWhile_skip key _ _ hk]
  simp [List.dropWhile_cons]

theorem lookup_of_split (t : Table) (key : Nat) (v : List Nat)
    (pre suf : List (Nat × List Nat)) (h : t.rows = pre ++ (key, v) :: suf)
    (hk : key ∉ pre.map Prod.fst) :
    bpf_map_lookup_elem t key = some v := by
  unfold bpf_map_lookup_elem
  rw [h]
  clear h
  induction pre with
  | nil => simp
  | cons a pre ih =>
    have ha : a.1 ≠ key := fun e => hk (by simp [e])
    have hk2 : key ∉ pre.map Prod.fst := fun e => hk (by simp at e ⊢; exact Or.inr e)
    simp only [List.cons_append, List.find?_cons]
    have : (a.1 == key) = false := by simpa using ha
    rw [this]
    exact ih hk2

theorem rows_after_split (key : Nat) (v : List Nat) (pre suf : List (Nat × List Nat))
    (hk : key ∉ pre.map Prod.fst) :
    rows_after key (pre ++ (key, v) :: suf) = suf := by
  induction pre with
  | nil => simp [rows_after]
  | cons a pre ih =>
    have ha : a.1 ≠ key := fun e => hk (by simp [e])
    have hk2 : key ∉ pre.map Prod.fst := fun e => hk (by simp at e ⊢; exact Or.inr e)
    simp [rows_after, ha, ih hk2]

theorem split_of_mem_keys (key : Nat) (rows : List (Nat × List Nat))
    (h : key ∈ rows.map Prod.fst) :
    ∃ pre v suf, rows = pre ++ (key, v) :: suf ∧ key ∉ pre.map Prod.fst := by
  induction rows with
  | nil => simp at h
  | cons a rows ih =>
    by_cases ha : a.1 = key
    · exact ⟨[], a.2, rows, by simp [← ha], by simp⟩
    · have h2 : key ∈ rows.map Prod.fst := by
        simp only [List.map_cons, List.mem_cons] at h
        rcases h with h | h
        · exact absurd h.symm ha
        · exact h
      obtain ⟨pre, v, suf, e, hn⟩ := ih h2
      refine ⟨a :: pre, v, suf, by simp [e], ?_⟩
      simp only [List.map_cons, List.mem_cons, not_or]
      exact ⟨fun e2 => ha e2.symm, hn⟩

/-! ## stats_poll -/

theorem world_out_self (w : World) (l : List Msg) (h : l = []) :
    ({ w with out := w.out ++ l } : World) = w := by
  subst h
  simp

theorem poll_round (fuel key : Nat) (w : World) (r : Nat × List Nat)
    (hnext : bpf_map_get_next_key w.table key = .ok r.1)
    (hrow : bpf_map_lookup_elem w.table r.1 = some r.2) :
    stats_poll_loop (fuel + 1) key w
      = stats_poll_loop fuel r.1
          { w with out := w.out ++ (render w.nr_cpus r).toList } := by
  rw [stats_poll_loop]
  simp only [bind_apply, get_world_apply, ret_bind, hnext, stats_collect_found _ _ _ _ hrow]
  by_cases hz : sum_values w.nr_cpus r.2 = 0
  · simp [stats_print, render, hz, proc_pure_apply]
  · simp [stats_print, render, hz, print_apply]

theorem poll_loop_from_present (suf : List (Nat × List Nat)) :
    ∀ (pre : List (Nat × List Nat)) (key : Nat) (v : List Nat) (w : World) (fuel : Nat),
      w.table.rows = pre ++ (key, v) :: suf → w.table.keys.Nodup → suf.length < fuel →
      stats_poll_loop fuel key w
        = Run.ret true { w with out := w.out ++ suf.filterMap (render w.nr_cpus) } := by
  induction suf with
  | nil =>
    intro pre key v w fuel hrows hnd hfuel
    have hk : key ∉ pre.map Prod.fst := by
      have : (pre.map Prod.fst ++ [key]).Nodup := by
        simpa [Table.keys, hrows] using hnd
      intro hmem
      exact (List.nodup_append.mp this).2.2 hmem (by simp)
    obtain ⟨f, rfl⟩ : ∃ f, fuel = f + 1 := ⟨fuel - 1, by simp at hfuel; omega⟩
    rw [stats_poll_loop]
    simp only [bind_apply, get_world_apply, ret_bind, get_next_key_last _ _ _ _ hrows hk,
      pure_apply]
    rw [world_out_self]
    simp
  | cons r suf ih =>
    intro pre key v w fuel hrows hnd hfuel
    have hnd2 : (pre.map Prod.fst ++ key :: r.1 :: suf.map Prod.fst).Nodup := by
      simpa [Table.keys, hrows] using hnd
    have hk : key ∉ pre.map Prod.fst := by
      intro hmem
      exact (List.nodup_append.mp hnd2).2.2 hmem (by simp)
    have hr : r.1 ∉ (pre ++ [(key, v)]).map Prod.fst := by
      intro hmem
      simp only [List.map_append, List.map_cons, List.map_nil, List.mem_append,
        List.mem_singleton] at hmem
      rcases hmem with hmem | hmem
      · exact (List.nodup_append.mp hnd2).2.2 hmem (by simp)
      · have := (List.nodup_append.mp hnd2).2.1
        simp only [List.nodup_cons, List.mem_cons, not_or] at this
        exact this.1.1 hmem.symm
    have hrows2 : w.table.rows = (pre ++ [(key, v)]) ++ (r.1, r.2) :: suf := by
      simp [hrows]
    obtain ⟨f, rfl⟩ : ∃ f, fuel = f + 1 := ⟨fuel - 1, by simp at hfuel; omega⟩
    have hf : suf.length < f := by simpa using hfuel
    rw [poll_round f key w r (get_next_key_mid _ _ _ _ _ _ hrows hk)
      (lookup_of_split _ _ _ _ _ hrows2 hr)]
    rw [ih (pre ++ [(key, v)]) r.1 r.2
      { w with out := w.out ++ (render w.nr_cpus r).toList } f hrows2 hnd hf]
    cases hrender : render w.nr_cpus r <;> simp [List.filterMap_cons, hrender]

theorem poll_loop_from_absent (key : Nat) (w : World) (fuel : Nat)
    (hk : key ∉ w.table.keys) (hnd : w.table.keys.Nodup)
    (hfuel : w.table.rows.length < fuel) :
    stats_poll_loop fuel key w
      = Run.ret true { w with out := w.out ++ w.table.rows.filterMap (render w.nr_cpus) } := by
  obtain ⟨f, rfl⟩ : ∃ f, fuel = f + 1 := ⟨fuel - 1, by omega⟩
  cases hrows : w.table.rows with
  | nil =>
    rw [stats_poll_loop]
    simp only [bind_apply, get_world_apply, ret_bind, get_next_key_absent_nil _ _ hrows,
      pure_apply]
    rw [world_out_self]
    simp
  | cons r rs =>
    have hr : r.1 ∉ ([] : List (Nat × List Nat)).map Prod.fst := by simp
    have hrows2 : w.table.rows = [] ++ (r.1, r.2) :: rs := by simp [hrows]
    have hf : rs.length < f := by simp [hrows] at hfuel; omega
    rw [poll_round f key w r (get_next_key_absent_cons _ _ _ _ hrows hk)
      (lookup_of_split _ _ _ _ _ hrows2 hr)]
    rw [poll_loop_from_present rs [] r.1 r.2
      { w with out := w.out ++ (render w.nr_cpus r).toList } f hrows2 hnd hf]
    cases hrender : render w.nr_cpus r <;> simp [List.filterMap_cons, hrender]

theorem poll_loop_cursor (key : Nat) (w : World) (fuel : Nat)
    (hnd : w.table.keys.Nodup) (hfuel : w.table.rows.length < fuel) :
    stats_poll_loop fuel key w
      = Run.ret true
          { w with out := w.out ++ (cursor_rows key w.table).filterMap (render w.nr_cpus) } := by
  unfold cursor_rows
  by_cases hk : key ∈ w.table.keys
  · obtain ⟨pre, v, suf, hrows, hpre⟩ := split_of_mem_keys key w.table.rows hk
    have hf : suf.length < fuel := by
      have : w.table.rows.length = pre.length + (suf.length + 1) := by simp [hrows]
      omega
    rw [poll_loop_from_present suf pre key v w fuel hrows hnd hf, if_pos hk, hrows,
      rows_after_split key v pre suf hpre]
  · rw [poll_loop_from_absent key w fuel hk hnd hfuel, if_neg hk]

theorem only_output_refl (w : World) : only_output w w := rfl

theorem only_output_trans {a b c : World} (h1 : only_output a b) (h2 : only_output b c) :
    only_output a c := by
  unfold only_output at *
  rw [h2, h1]

theorem poll_loop_frame (fuel : Nat) :
    ∀ (key : Nat) (w : World),
      ∃ b w2, stats_poll_loop fuel key w = Run.ret b w2 ∧ only_output w w2 := by
  induction fuel with
  | zero =>
    intro key w
    exact ⟨false, w, rfl, only_output_refl w⟩
  | succ f ih =>
    intro key w
    rw [stats_poll_loop]
    simp only [bind_apply, get_world_apply, ret_bind]
    cases hnext : bpf_map_get_next_key w.table key with
    | error e => exact ⟨true, w, rfl, only_output_refl w⟩
    | ok next_key =>
      simp only [bind_apply]
      cases hrow : bpf_map_lookup_elem w.table next_key with
      | none =>
        rw [stats_collect_missing _ _ _ hrow]
        simp only [ret_bind, Bool.false_eq_true, if_false, proc_pure_apply]
        have h1 : only_output w { w with out := w.out ++ [Msg.lookup_failed] } := rfl
        obtain ⟨b, w2, e, h⟩ := ih next_key { w with out := w.out ++ [Msg.lookup_failed] }
        exact ⟨b, w2, e, only_output_trans h1 h⟩
      | some values =>
        rw [stats_collect_found _ _ _ _ hrow]
        by_cases hz : sum_values w.nr_cpus values = 0
        · simp only [ret_bind, stats_print, hz, if_true, ne_eq, not_true_eq_false, if_false,
            proc_pure_apply]
          exact ih next_key w
        · simp only [ret_bind, stats_print, hz, if_true, ne_eq, not_false_eq_true, print_apply]
          have h1 : only_output w
              { w with out := w.out ++
                  [Msg.key_line next_key (sum_values w.nr_cpus values)] } := rfl
          obtain ⟨b, w2, e, h⟩ := ih next_key
            { w with out := w.out ++ [Msg.key_line next_key (sum_values w.nr_cpus values)] }
          exact ⟨b, w2, e, only_output_trans h1 h⟩

theorem stats_poll_frame (fuel : Nat) (w : World) :
    ∃ b w2, stats_poll fuel w = Run.ret b w2 ∧ only_output w w2 := by
  simp only [stats_poll, stats_print_headers, bind_apply, print_apply, modify_apply,
    get_world_apply, ret_bind]
  have h1 : only_output w
      { w with stats_i := (w.stats_i + 1) % U32,
               out := w.out ++ [Msg.clear_screen] ++ [Msg.debug_notice]
                        ++ [Msg.stats ((w.stats_i + 1) % U32)] } := rfl
  obtain ⟨b, w2, e, h⟩ := poll_loop_frame fuel 0
    { w with stats_i := (w.stats_i + 1) % U32,
             out := w.out ++ [Msg.clear_screen] ++ [Msg.debug_notice]
                      ++ [Msg.stats ((w.stats_i + 1) % U32)] }
  exact ⟨b, w2, e, only_output_trans h1 h⟩

theorem stats_poll_eq (fuel : Nat) (w : World)
    (hnd : w.table.keys.Nodup) (hfuel : w.table.rows.length < fuel) :
    stats_poll fuel w = Run.ret true
      { w with
        stats_i := (w.stats_i + 1) % U32,
        out := w.out ++ [Msg.clear_screen, Msg.debug_notice, Msg.stats ((w.stats_i + 1) % U32)]
                 ++ (cursor_rows 0 w.table).filterMap (render w.nr_cpus) } := by
  simp only [stats_poll, stats_print_headers, bind_apply, print_apply, modify_apply,
    get_world_apply, ret_bind]
  have h := poll_loop_cursor 0
    { w with stats_i := (w.stats_i + 1) % U32,
             out := w.out ++ [Msg.clear_screen] ++ [Msg.debug_notice]
                      ++ [Msg.stats ((w.stats_i + 1) % U32)] } fuel hnd hfuel
  rw [h]
  simp

theorem poll_loop_lines (fuel : Nat) :
    ∀ (key : Nat) (w : World),
      ∃ b new, stats_poll_loop fuel key w = Run.ret b { w with out := w.out ++ new } ∧
        ∀ m ∈ new, poll_line w.nr_cpus w.table m := by
  induction fuel with
  | zero =>
    intro key w
    refine ⟨false, [], ?_, by simp⟩
    rw [world_out_self w [] rfl]
    rfl
  | succ f ih =>
    intro key w
    rw [stats_poll_loop]
    simp only [bind_apply, get_world_apply, ret_bind]
    cases hnext : bpf_map_get_next_key w.table key with
    | error e =>
      refine ⟨true, [], ?_, by simp⟩
      rw [world_out_self w [] rfl]
      rfl
    | ok next_key =>
      simp only [bind_apply]
      cases hrow : bpf_map_lookup_elem w.table next_key with
      | none =>
        rw [stats_collect_missing _ _ _ hrow]
        simp only [ret_bind, Bool.false_eq_true, if_false, proc_pure_apply]
        obtain ⟨b, new, e, h⟩ := ih next_key { w with out := w.out ++ [Msg.lookup_failed] }
        refine ⟨b, Msg.lookup_failed :: new, ?_, ?_⟩
        · rw [e]
          simp
        · intro m hm
          simp only [List.mem_cons] at hm
          rcases hm with hm | hm
          · exact Or.inl hm
          · exact h m hm
      | some values =>
        rw [stats_collect_found _ _ _ _ hrow]
        by_cases hz : sum_values w.nr_cpus values = 0
        · simp only [ret_bind, stats_print, hz, if_true, ne_eq, not_true_eq_false, if_false,
            proc_pure_apply]
          exact ih next_key w
        · simp only [ret_bind, stats_print, hz, if_true, ne_eq, not_false_eq_true, print_apply]
          obtain ⟨b, new, e, h⟩ := ih next_key
            { w with out := w.out ++ [Msg.key_line next_key (sum_values w.nr_cpus values)] }
          refine ⟨b, Msg.key_line next_key (sum_values w.nr_cpus values) :: new, ?_, ?_⟩
          · rw [e]
            simp
          · intro m hm
            simp only [List.mem_cons] at hm
            rcases hm with hm | hm
            · exact Or.inr ⟨next_key, values, hrow, hz, hm⟩
            · exact h m hm

theorem stats_poll_lines (fuel : Nat) (w : World) :
    ∃ b new, stats_poll fuel w = Run.ret b
        { w with
          stats_i := (w.stats_i + 1) % U32,
          out := w.out
            ++ [Msg.clear_screen, Msg.debug_notice, Msg.stats ((w.stats_i + 1) % U32)]
            ++ new } ∧
      ∀ m ∈ new, poll_line w.nr_cpus w.table m := by
  simp only [stats_poll, stats_print_headers, bind_apply, print_apply, modify_apply,
    get_world_apply, ret_bind]
  obtain ⟨b, new, e, h⟩ := poll_loop_lines fuel 0
    { w with stats_i := (w.stats_i + 1) % U32,
             out := w.out ++ [Msg.clear_screen] ++ [Msg.debug_notice]
                      ++ [Msg.stats ((w.stats_i + 1) % U32)] }
  refine ⟨b, new, ?_, h⟩
  rw [e]
  simp

/-! ## After the attach -/

theorem steady_refl (w : World) : steady w w := ⟨rfl, rfl, rfl, rfl, rfl, id⟩

theorem steady_trans {a b c : World} (h1 : steady a b) (h2 : steady b c) : steady a c :=
  ⟨h2.1.trans h1.1, h2.2.1.trans h1.2.1, h2.2.2.1.trans h1.2.2.1,
   h2.2.2.2.1.trans h1.2.2.2.1, h2.2.2.2.2.1.trans h1.2.2.2.2.1,
   fun h => h2.2.2.2.2.2 (h1.2.2.2.2.2 h)⟩

theorem steady_of_only_output {w w2 : World} (h : only_output w w2) : steady w w2 := by
  unfold only_output at h
  rw [h]
  exact ⟨rfl, rfl, rfl, rfl, rfl, id⟩

theorem attached_inv_of_steady {w w2 : World} (h : steady w w2) (hw : attached_inv w) :
    attached_inv w2 := by
  obtain ⟨h1, _, h3, h4, _, h5⟩ := h
  obtain ⟨a, b, c, d⟩ := hw
  exact ⟨by rw [h3, h1, a], by rw [h4, b], by rw [h1]; exact c, h5 d⟩

theorem no_detach_append (w : World) (cs : List Call) (hw : no_detach w)
    (hcs : ∀ c ∈ cs, c.is_detach = false) (w2 : World) (h : w2.calls = w.calls ++ cs) :
    no_detach w2 := by
  intro c hc
  rw [h, List.mem_append] at hc
  rcases hc with hc | hc
  · exact hw c hc
  · exact hcs c hc

/-! ### The actions after the attach are steady -/

theorem steady_acts_bind {α β : Type} (m : Proc α) (f : α → Proc β)
    (hm : m.steady_acts) (hf : ∀ a, (f a).steady_acts) : (m >>= f).steady_acts := by
  show (Proc.bind m f).steady_acts
  induction m with
  | pure a => exact hf a
  | exit code => trivial
  | get k ih => exact fun w => ih w (hm w)
  | act t k ih => exact ⟨hm.1, fun r => ih r (hm.2 r)⟩

theorem steady_acts_pure {α : Type} (a : α) : (pure a : Proc α).steady_acts := trivial

theorem steady_acts_exit {α : Type} (code : Int) : (exit code : Proc α).steady_acts := trivial

theorem steady_acts_get_world : get_world.steady_acts := fun _ => trivial

theorem steady_acts_modify (f : World → World) (h : ∀ w, steady w (f w)) :
    (Proc.modify f).steady_acts := ⟨h, fun _ => trivial⟩

theorem steady_acts_print (m : Msg) : (print m).steady_acts :=
  steady_acts_modify _ (fun _ => ⟨rfl, rfl, rfl, rfl, rfl, id⟩)

theorem steady_acts_sleep (seconds : Nat) : (sleep seconds).steady_acts :=
  steady_acts_modify _ (fun w => steady_refl w)

theorem steady_acts_update (key value : Nat) : (bpf_map_update_elem key value).steady_acts := by
  refine ⟨fun w => ?_, fun _ => trivial⟩
  have hupd : ∀ c ∈ [Call.bpf_map_update_elem key value], c.is_detach = false := by
    intro c hc
    simp only [List.mem_singleton] at hc
    rw [hc]
    rfl
  simp only []
  cases bpf_map_update_elem_noexist w.table key (percpu_words w.nr_cpus value w.stack_words)
      (w.places.headD w.table.rows.length) w.update_errno with
  | ok t => exact ⟨rfl, rfl, rfl, rfl, rfl, fun h => no_detach_append w _ h hupd _ rfl⟩
  | error e => exact ⟨rfl, rfl, rfl, rfl, rfl, fun h => no_detach_append w _ h hupd _ rfl⟩

theorem steady_acts_blacklist_add (ip_string : String) :
    (blacklist_add ip_string).steady_acts := by
  unfold blacklist_add
  simp only []
  split
  · refine steady_acts_bind _ _ ?_ (fun _ => steady_acts_exit _)
    split
    · exact steady_acts_print _
    · exact steady_acts_print _
  · refine steady_acts_bind _ _ (steady_acts_update _ _) (fun res => ?_)
    split
    · refine steady_acts_bind _ _ steady_acts_get_world (fun w => ?_)
      refine steady_acts_bind _ _ (steady_acts_print _) (fun _ => ?_)
      split
      · exact steady_acts_print _
      · exact steady_acts_bind _ _ (steady_acts_print _) (fun _ => steady_acts_exit _)
    · split
      · exact steady_acts_print _
      · exact steady_acts_pure _

theorem steady_acts_stats_print (record : stats_key) : (stats_print record).steady_acts := by
  unfold stats_print
  simp only []
  split
  · exact steady_acts_print _
  · trivial

theorem steady_acts_stats_collect (record : stats_key) (key : Nat) :
    (stats_collect record key).steady_acts := by
  unfold stats_collect
  refine steady_acts_bind _ _ steady_acts_get_world (fun w => ?_)
  simp only []
  split
  · exact steady_acts_bind _ _ (steady_acts_print _) (fun _ => steady_acts_pure _)
  · exact steady_acts_pure _

theorem steady_acts_stats_poll_loop (fuel : Nat) :
    ∀ key, (stats_poll_loop fuel key).steady_acts := by
  induction fuel with
  | zero =>
    intro key
    trivial
  | succ f ih =>
    intro key
    rw [stats_poll_loop]
    refine steady_acts_bind _ _ steady_acts_get_world (fun w => ?_)
    split
    · exact steady_acts_pure _
    · refine steady_acts_bind _ _ (steady_acts_stats_collect _ _) (fun r => ?_)
      refine steady_acts_bind _ _ ?_ (fun _ => ih _)
      split
      · exact steady_acts_stats_print _
      · trivial

theorem steady_acts_stats_print_headers : stats_print_headers.steady_acts := by
  unfold stats_print_headers
  refine steady_acts_bind _ _ (steady_acts_print _) (fun _ => ?_)
  refine steady_acts_bind _ _
    (steady_acts_modify _ (fun _ => ⟨rfl, rfl, rfl, rfl, rfl, id⟩)) (fun _ => ?_)
  exact steady_acts_bind _ _ steady_acts_get_world (fun _ => steady_acts_print _)

theorem steady_acts_stats_poll (fuel : Nat) : (stats_poll fuel).steady_acts := by
  unfold stats_poll
  refine steady_acts_bind _ _ (steady_acts_print _) (fun _ => ?_)
  exact steady_acts_bind _ _ steady_acts_stats_print_headers
    (fun _ => steady_acts_stats_poll_loop _ _)

theorem steady_acts_main_step (pc : Nat) : (main_step pc).steady_acts := by
  match pc with
  | 0 =>
    rw [main_step]
    exact steady_acts_blacklist_add _
  | 1 =>
    rw [main_step]
    exact steady_acts_blacklist_add _
  | 2 => exact steady_acts_sleep 10
  | 3 =>
    rw [main_step]
    exact steady_acts_blacklist_add _
  | n + 4 =>
    rw [main_step]
    split
    · refine steady_acts_bind _ _ steady_acts_get_world (fun w => ?_)
      exact steady_acts_bind _ _ (steady_acts_stats_poll _) (fun _ => steady_acts_pure _)
    · exact steady_acts_sleep _

theorem run_steady {α : Type} (p : Proc α) :
    ∀ w : World, p.steady_acts → steady w (p w).world := by
  induction p with
  | pure a => exact fun w _ => steady_refl w
  | exit code => exact fun w _ => steady_refl w
  | get k ih => exact fun w h => ih w w (h w)
  | act t k ih => exact fun w h => steady_trans (h.1 w) (ih (t w).1 (t w).2 (h.2 (t w).1))


theorem blacklist_add_update_end (ip_string : String) (w : World)
    (hp : 0 < (inet_pton ip_string).1) : (blacklist_add ip_string w).update_end := by
  by_cases hk : (inet_pton ip_string).2 ∈ w.table.keys
  · rw [blacklist_add_present ip_string w hp hk]
    trivial
  · by_cases hroom : w.table.rows.length < w.table.max_entries
    · by_cases hr : w.update_errno = 0 ∨ w.update_errno = 17
      · rw [blacklist_add_inserted ip_string w hp hk hroom hr]
        trivial
      · rw [blacklist_add_refused ip_string w hp hk hroom (not_or.mp hr)]
        rfl
    · rw [blacklist_add_full ip_string w hp hk (not_lt.mp hroom)]
      rfl

theorem main_step_steady (pc : Nat) (w : World) :
    steady w (main_step pc w).world ∧ (main_step pc w).update_end := by
  refine ⟨run_steady _ w (steady_acts_main_step pc), ?_⟩
  match pc with
  | 0 =>
    rw [main_step]
    exact blacklist_add_update_end _ w (by decide)
  | 1 =>
    rw [main_step]
    exact blacklist_add_update_end _ w (by decide)
  | 2 => trivial
  | 3 =>
    rw [main_step]
    exact blacklist_add_update_end _ w (by decide)
  | n + 4 =>
    rw [main_step]
    by_cases hn : n % 2 = 0
    · simp only [hn, if_true, bind_apply, get_world_apply, ret_bind]
      obtain ⟨b, w2, e, h⟩ := stats_poll_frame (w.table.rows.length + 1) w
      rw [e]
      trivial
    · simp only [hn, if_false]
      trivial

theorem main_run_steady (n : Nat) :
    ∀ (pc : Nat) (w : World),
      steady w (main_run n pc w).world ∧ (main_run n pc w).update_end := by
  induction n with
  | zero =>
    intro pc w
    exact ⟨steady_refl w, trivial⟩
  | succ n ih =>
    intro pc w
    rw [main_run]
    simp only [bind_apply]
    have hs := main_step_steady pc w
    cases hstep : main_step pc w with
    | ret a w1 =>
      rw [hstep] at hs
      simp only [ret_bind]
      exact ⟨steady_trans hs.1 (ih (pc + 1) w1).1, (ih (pc + 1) w1).2⟩
    | exit code w1 =>
      rw [hstep] at hs
      exact hs
    | killed signo w1 =>
      rw [hstep] at hs
      exact hs

/-! ## The export step -/

theorem main_export_free_ok (w : World) (hfree : w.pinned = none) (hpin : w.pin_ok = true) :
    main_export w = Run.ret ()
      { w with calls := w.calls ++ [Call.bpf_obj_pin], pinned := some Export.current,
               out := w.out ++ [Msg.exported] } := by
  simp [main_export, bind_apply, bpf_obj_pin, step_apply, hfree, hpin, print_apply, pure_apply]

theorem main_export_free_fail (w : World) (hfree : w.pinned = none)
    (hpin : w.pin_ok = false) :
    main_export w = Run.exit EXIT_FAIL_MAP
      { w with calls := w.calls ++ [Call.bpf_obj_pin], errno := EPERM,
               out := w.out ++ [Msg.cannot_pin EPERM] } := by
  simp [main_export, bind_apply, bpf_obj_pin, step_apply, hfree, hpin, print_apply,
    get_world_apply, EPERM, exit_apply]

theorem main_export_stale_ok (w : World) (hstale : w.pinned.isSome = true)
    (hunlink : w.unlink_ok = true) :
    main_export w = Run.ret ()
      { w with calls := w.calls ++ [Call.bpf_obj_pin, Call.unlink], errno := EEXIST,
               pinned := none, out := w.out ++ [Msg.del_previous, Msg.exported] } := by
  simp [main_export, bind_apply, bpf_obj_pin, step_apply, hstale, hunlink, print_apply,
    get_world_apply, EEXIST, unlink, pure_apply]

theorem main_export_stale_fail (w : World) (hstale : w.pinned.isSome = true)
    (hunlink : w.unlink_ok = false) :
    main_export w = Run.exit EXIT_FAIL_MAP
      { w with calls := w.calls ++ [Call.bpf_obj_pin, Call.unlink], errno := EPERM,
               out := w.out ++ [Msg.del_previous, Msg.cannot_cleanup EPERM] } := by
  simp [main_export, bind_apply, bpf_obj_pin, step_apply, hstale, hunlink, print_apply,
    get_world_apply, EEXIST, EPERM, unlink, exit_apply]

/-! ## The attach step -/

theorem set_link_attach_ok (w : World) (ifindex : Int) (fd : Nat) (hok : w.xdp_ok = true)
    (hdev : ifindex ∈ w.devices.map (fun d => (d.2 : Int))) :
    set_link_xdp_fd ifindex fd w = Run.ret 0
      { w with calls := w.calls ++ [Call.set_link_xdp_fd ifindex fd],
               xdp := some ifindex } := by
  have hfd : ¬ ((fd : Int) < 0) := by omega
  unfold set_link_xdp_fd
  rw [step_apply]
  simp only []
  rw [if_neg hfd, if_pos ⟨hok, hdev⟩]

theorem set_link_attach_fail (w : World) (ifindex : Int) (fd : Nat)
    (h : ¬ (w.xdp_ok = true ∧ ifindex ∈ w.devices.map (fun d => (d.2 : Int)))) :
    set_link_xdp_fd ifindex fd w = Run.ret (-1)
      { w with calls := w.calls ++ [Call.set_link_xdp_fd ifindex fd] } := by
  have hfd : ¬ ((fd : Int) < 0) := by omega
  unfold set_link_xdp_fd
  rw [step_apply]
  simp only []
  rw [if_neg hfd, if_neg h]

theorem set_link_detach (w : World) (ifindex : Int) :
    set_link_xdp_fd ifindex (-1) w = Run.ret 0
      { w with calls := w.calls ++ [Call.set_link_xdp_fd ifindex (-1)],
               xdp := if w.xdp = some ifindex then none else w.xdp } := by
  unfold set_link_xdp_fd
  simp [step_apply]

theorem main_attach_ok (w : World) (hok : w.xdp_ok = true)
    (hdev : w.ifindex ∈ w.devices.map (fun d => (d.2 : Int))) :
    main_attach w = Run.ret ()
      { w with sigint_handler := true,
               calls := w.calls ++ [Call.signal_SIGINT,
                          Call.set_link_xdp_fd w.ifindex w.prog_fd0],
               xdp := some w.ifindex } := by
  simp only [main_attach, bind_apply, signal_SIGINT, modify_apply, get_world_apply, ret_bind]
  rw [set_link_attach_ok
    { w with sigint_handler := true, calls := w.calls ++ [Call.signal_SIGINT] }
    w.ifindex w.prog_fd0 hok hdev]
  simp [pure_apply]

theorem main_attach_fail (w : World)
    (h : ¬ (w.xdp_ok = true ∧ w.ifindex ∈ w.devices.map (fun d => (d.2 : Int)))) :
    main_attach w = Run.exit EXIT_FAIL_XDP
      { w with sigint_handler := true,
               calls := w.calls ++ [Call.signal_SIGINT,
                          Call.set_link_xdp_fd w.ifindex w.prog_fd0],
               out := w.out ++ [Msg.link_set_failed] } := by
  simp only [main_attach, bind_apply, signal_SIGINT, modify_apply, get_world_apply, ret_bind]
  rw [set_link_attach_fail
    { w with sigint_handler := true, calls := w.calls ++ [Call.signal_SIGINT] }
    w.ifindex w.prog_fd0 h]
  simp [bind_apply, print_apply, exit_apply]

/-! ## The option loop -/

theorem to_int_zero : to_int 0 = 0 := by decide

theorem main_options_cons_other (o : Opt) (rest : List Opt) (w : World) (h : o.opt ≠ 'd') :
    main_options (o :: rest) w = Run.exit EXIT_FAIL_OPTION
      { w with out := w.out ++ [Msg.usage_text] } := by
  simp [main_options, h, bind_apply, usage, print_apply, exit_apply]

theorem main_options_cons_long (o : Opt) (rest : List Opt) (w : World) (h : o.opt = 'd')
    (hlen : IF_NAMESIZE ≤ o.optarg.utf8ByteSize) :
    main_options (o :: rest) w = Run.exit EXIT_FAIL_OPTION
      { w with out := w.out ++ [Msg.dev_too_long, Msg.usage_text] } := by
  simp [main_options, h, hlen, bind_apply, usage, print_apply, exit_apply]

theorem main_options_cons_unknown (o : Opt) (rest : List Opt) (w : World) (h : o.opt = 'd')
    (hlen : o.optarg.utf8ByteSize < IF_NAMESIZE)
    (hidx : to_int (if_nametoindex w o.optarg) = 0) :
    main_options (o :: rest) w = Run.exit EXIT_FAIL_OPTION
      { w with ifname := some o.optarg, ifindex := to_int (if_nametoindex w o.optarg),
               errno := if if_nametoindex w o.optarg = 0 then ENODEV else w.errno,
               out := w.out ++ [Msg.dev_unknown ENODEV, Msg.usage_text] } := by
  have hlen2 : ¬ IF_NAMESIZE ≤ o.optarg.utf8ByteSize := not_le.mpr hlen
  simp [main_options, h, hlen2, hidx, bind_apply, usage, print_apply, exit_apply,
    get_world_apply, modify_apply]

theorem main_options_cons_ok (o : Opt) (rest : List Opt) (w : World) (h : o.opt = 'd')
    (hlen : o.optarg.utf8ByteSize < IF_NAMESIZE)
    (hidx : to_int (if_nametoindex w o.optarg) ≠ 0) :
    main_options (o :: rest) w = main_options rest
      { w with ifname := some o.optarg, ifindex := to_int (if_nametoindex w o.optarg),
               errno := if if_nametoindex w o.optarg = 0 then ENODEV else w.errno,
               out := w.out ++ [Msg.device o.optarg (to_int (if_nametoindex w o.optarg))] } := by
  have hlen2 : ¬ IF_NAMESIZE ≤ o.optarg.utf8ByteSize := not_le.mpr hlen
  rw [main_options]
  simp [h, hlen2, hidx, bind_apply, print_apply, get_world_apply, modify_apply, verbose]

theorem only_globals_trans {a b c : World} (h1 : only_globals a b) (h2 : only_globals b c) :
    only_globals a c := by
  unfold only_globals at *
  rw [h2, h1]

theorem main_options_shape (opts : List Opt) :
    ∀ w : World,
      (∃ w2, main_options opts w = Run.ret () w2 ∧ only_globals w w2) ∨
      (∃ w2, main_options opts w = Run.exit EXIT_FAIL_OPTION w2 ∧ only_globals w w2) := by
  induction opts with
  | nil =>
    intro w
    exact Or.inl ⟨w, rfl, rfl⟩
  | cons o rest ih =>
    intro w
    by_cases h : o.opt = 'd'
    · by_cases hlen : IF_NAMESIZE ≤ o.optarg.utf8ByteSize
      · exact Or.inr ⟨_, main_options_cons_long o rest w h hlen, rfl⟩
      · by_cases hidx : to_int (if_nametoindex w o.optarg) = 0
        · exact Or.inr ⟨_, main_options_cons_unknown o rest w h (not_le.mp hlen) hidx, rfl⟩
        · rw [main_options_cons_ok o rest w h (not_le.mp hlen) hidx]
          have h1 : only_globals w
              { w with ifname := some o.optarg,
                       ifindex := to_int (if_nametoindex w o.optarg),
                       errno := if if_nametoindex w o.optarg = 0 then ENODEV else w.errno,
                       out := w.out ++
                         [Msg.device o.optarg (to_int (if_nametoindex w o.optarg))] } := rfl
          rcases ih _ with ⟨w2, e, g⟩ | ⟨w2, e, g⟩
          · exact Or.inl ⟨w2, e, only_globals_trans h1 g⟩
          · exact Or.inr ⟨w2, e, only_globals_trans h1 g⟩
    · exact Or.inr ⟨_, main_options_cons_other o rest w h, rfl⟩

theorem main_options_bad (opts : List Opt) :
    ∀ w : World,
      (∃ o ∈ opts, o.opt ≠ 'd' ∨ IF_NAMESIZE ≤ o.optarg.utf8ByteSize ∨
        if_nametoindex w o.optarg = 0) →
      ∃ w2, main_options opts w = Run.exit EXIT_FAIL_OPTION w2 := by
  induction opts with
  | nil =>
    intro w h
    obtain ⟨o, ho, _⟩ := h
    simp at ho
  | cons o rest ih =>
    intro w hbad
    by_cases h : o.opt = 'd'
    · by_cases hlen : IF_NAMESIZE ≤ o.optarg.utf8ByteSize
      · exact ⟨_, main_options_cons_long o rest w h hlen⟩
      · by_cases hidx : to_int (if_nametoindex w o.optarg) = 0
        · exact ⟨_, main_options_cons_unknown o rest w h (not_le.mp hlen) hidx⟩
        · rw [main_options_cons_ok o rest w h (not_le.mp hlen) hidx]
          apply ih
          obtain ⟨b, hb, hcond⟩ := hbad
          simp only [List.mem_cons] at hb
          rcases hb with hb | hb
          · subst hb
            rcases hcond with hc | hc | hc
            · exact absurd h hc
            · exact absurd hc hlen
            · rw [hc, to_int_zero] at hidx
              exact absurd rfl hidx
          · exact ⟨b, hb, hcond⟩
    · exact ⟨_, main_options_cons_other o rest w h⟩

/-! ## The checks before the export -/

theorem main_required_missing (w : World) (h : w.ifindex = -1) :
    main_required w = Run.exit EXIT_FAIL_OPTION
      { w with out := w.out ++ [Msg.dev_missing, Msg.usage_text] } := by
  simp [main_required, bind_apply, get_world_apply, h, print_apply, usage, exit_apply]

theorem main_required_given (w : World) (h : w.ifindex ≠ -1) :
    main_required w = Run.ret () w := by
  simp [main_required, bind_apply, get_world_apply, h, pure_apply]

theorem main_load_ok (w : World) (h1 : w.rlimit_ok = true) (h2 : w.load_ok = true)
    (h3 : w.prog_fd0 ≠ 0) :
    main_load w = Run.ret () w := by
  simp [main_load, bind_apply, get_world_apply, h1, h2, h3, pure_apply]

theorem main_load_fail (w : World)
    (h : ¬ (w.rlimit_ok = true ∧ w.load_ok = true ∧ w.prog_fd0 ≠ 0)) :
    ∃ m, main_load w = Run.exit EXIT_FAIL { w with out := w.out ++ [m] } := by
  by_cases h1 : w.rlimit_ok = true
  · by_cases h2 : w.load_ok = true
    · have h3 : w.prog_fd0 = 0 := by
        by_contra h3
        exact h ⟨h1, h2, h3⟩
      exact ⟨Msg.load_bpf_file_failed w.errno, by
        simp [main_load, bind_apply, get_world_apply, h1, h2, h3, print_apply, exit_apply,
          EXIT_FAIL]⟩
    · exact ⟨Msg.bpf_log_buf, by
        simp [main_load, bind_apply, get_world_apply, h1, h2, print_apply, exit_apply, EXIT_FAIL]⟩
  · exact ⟨Msg.perror_setrlimit, by
      simp [main_load, bind_apply, get_world_apply, h1, print_apply, exit_apply, EXIT_FAIL]⟩

/-! ## The whole startup -/

theorem bind_ret {α β : Type} (m : Proc α) (f : α → Proc β) (w : World) (b : β) (w2 : World)
    (h : (m >>= f) w = Run.ret b w2) :
    ∃ a w1, m w = Run.ret a w1 ∧ f a w1 = Run.ret b w2 := by
  rw [bind_apply] at h
  cases hm : m w with
  | ret a w1 =>
    rw [hm, ret_bind] at h
    exact ⟨a, w1, rfl, h⟩
  | exit code w1 =>
    rw [hm, exit_bind] at h
    cases h
  | killed signo w1 =>
    rw [hm, killed_bind] at h
    cases h

theorem main_options_ret (opts : List Opt) (w w2 : World)
    (h : main_options opts w = Run.ret () w2) : only_globals w w2 := by
  rcases main_options_shape opts w with ⟨w3, e, g⟩ | ⟨w3, e, _⟩
  · rw [e] at h
    cases h
    exact g
  · rw [e] at h
    cases h

theorem main_required_ret (w w2 : World) (h : main_required w = Run.ret () w2) :
    w2 = w ∧ w.ifindex ≠ -1 := by
  by_cases hi : w.ifindex = -1
  · rw [main_required_missing w hi] at h
    cases h
  · rw [main_required_given w hi] at h
    cases h
    exact ⟨rfl, hi⟩

theorem main_load_ret (w w2 : World) (h : main_load w = Run.ret () w2) : w2 = w := by
  by_cases hl : w.rlimit_ok = true ∧ w.load_ok = true ∧ w.prog_fd0 ≠ 0
  · rw [main_load_ok w hl.1 hl.2.1 hl.2.2] at h
    cases h
    rfl
  · obtain ⟨m, e⟩ := main_load_fail w hl
    rw [e] at h
    cases h

theorem main_export_ret (w w2 : World) (h : main_export w = Run.ret () w2) :
    w2.signals = w.signals ∧ (no_detach w → no_detach w2) := by
  have hcs : ∀ c ∈ [Call.bpf_obj_pin, Call.unlink], c.is_detach = false := by decide
  have hc : ∀ c ∈ [Call.bpf_obj_pin], c.is_detach = false := by decide
  cases hp : w.pinned with
  | none =>
    by_cases hpin : w.pin_ok = true
    · rw [main_export_free_ok w hp hpin] at h
      cases h
      exact ⟨rfl, fun hn => no_detach_append w _ hn hc _ rfl⟩
    · rw [main_export_free_fail w hp (by simpa using hpin)] at h
      cases h
  | some e =>
    have hs : w.pinned.isSome = true := by simp [hp]
    by_cases hun : w.unlink_ok = true
    · rw [main_export_stale_ok w hs hun] at h
      cases h
      exact ⟨rfl, fun hn => no_detach_append w _ hn hcs _ rfl⟩
    · rw [main_export_stale_fail w hs (by simpa using hun)] at h
      cases h

theorem main_attach_ret (w w2 : World) (h : main_attach w = Run.ret () w2)
    (hn : no_detach w) :
    attached_inv w2 ∧ Call.set_link_xdp_fd w.ifindex w.prog_fd0 ∈ w2.calls ∧
      w2.ifindex = w.ifindex ∧ w2.prog_fd0 = w.prog_fd0 ∧ w2.signals = w.signals := by
  by_cases hc : w.xdp_ok = true ∧ w.ifindex ∈ w.devices.map (fun d => (d.2 : Int))
  · rw [main_attach_ok w hc.1 hc.2] at h
    cases h
    have hpos : -1 < w.ifindex := by
      obtain ⟨d, _, hd⟩ := List.mem_map.mp hc.2
      have : (0 : Int) ≤ (d.2 : Int) := Int.ofNat_nonneg _
      rw [← hd]
      omega
    have hcalls : ∀ c ∈ [Call.signal_SIGINT, Call.set_link_xdp_fd w.ifindex w.prog_fd0],
        c.is_detach = false := by
      intro c hc2
      simp only [List.mem_cons, List.mem_singleton, List.not_mem_nil, or_false] at hc2
      rcases hc2 with rfl | rfl
      · rfl
      · simp only [Call.is_detach, decide_eq_false_iff_not, not_lt]
        exact Int.ofNat_nonneg _
    exact ⟨⟨rfl, rfl, hpos, no_detach_append w _ hn hcalls _ rfl⟩, by simp, rfl, rfl, rfl⟩
  · rw [main_attach_fail w hc] at h
    cases h

theorem only_globals_no_detach {w w2 : World} (h : only_globals w w2) (hn : no_detach w) :
    no_detach w2 := by
  unfold only_globals at h
  rw [h]
  exact hn

theorem only_globals_signals {w w2 : World} (h : only_globals w w2) :
    w2.signals = w.signals := by
  unfold only_globals at h
  rw [h]

theorem main_startup_ret (opts : List Opt) (w w1 : World)
    (h : main_startup opts w = Run.ret () w1) (hn : no_detach w) :
    attached_inv w1 ∧ Call.set_link_xdp_fd w1.ifindex w1.prog_fd0 ∈ w1.calls ∧
      w1.signals = w.signals := by
  unfold main_startup at h
  obtain ⟨_, wa, ha, h1⟩ := bind_ret _ _ _ _ _ h
  obtain ⟨_, wb, hb, h2⟩ := bind_ret _ _ _ _ _ h1
  obtain ⟨_, wc, hc, h3⟩ := bind_ret _ _ _ _ _ h2
  obtain ⟨_, wd, hd, h4⟩ := bind_ret _ _ _ _ _ h3
  have na : no_detach wa := only_globals_no_detach (main_options_ret opts w wa ha) hn
  have nb : no_detach wb := by
    rw [(main_required_ret wa wb hb).1]
    exact na
  have nc : no_detach wc := by
    rw [main_load_ret wb wc hc]
    exact nb
  have nd : no_detach wd := (main_export_ret wc wd hd).2 nc
  obtain ⟨inv, hcall, e1, e2, e3⟩ := main_attach_ret wd w1 h4 nd
  have hsig : w1.signals = w.signals := by
    rw [e3, (main_export_ret wc wd hd).1, main_load_ret wb wc hc, (main_required_ret wa wb hb).1,
      only_globals_signals (main_options_ret opts w wa ha)]
  rw [e1, e2]
  exact ⟨inv, hcall, hsig⟩

theorem no_detach_start (w : World) : no_detach w.start := by
  intro c hc
  simp [World.start] at hc

theorem main_after_startup (opts : List Opt) (n : Nat) (sig : Option Signal) (w w1 : World)
    (hstart : main_startup opts w = Run.ret () w1) :
    main opts n sig w = (main_run n 0 w1).bind (fun _ w2 => arrival sig n w2) := by
  unfold main
  rw [hstart, ret_bind]

theorem main_of_startup_exit (opts : List Opt) (n : Nat) (sig : Option Signal) (w w1 : World)
    (code : Int) (hstart : main_startup opts w = Run.exit code w1) :
    main opts n sig w = Run.exit code w1 := by
  unfold main
  rw [hstart, exit_bind]

/-! ## The interrupt handler -/

theorem int_exit_attached (sig : Int) (w : World) (hidx : -1 < w.ifindex) :
    int_exit sig w = Run.exit 0
      { w with out := w.out ++ [Msg.interrupted w.ifindex w.ifname],
               calls := w.calls ++ [Call.set_link_xdp_fd w.ifindex (-1)],
               xdp := if w.xdp = some w.ifindex then none else w.xdp } := by
  simp only [int_exit, bind_apply, get_world_apply, print_apply, ret_bind, hidx, if_true,
    gt_iff_lt]
  rw [set_link_detach]
  rfl

theorem deliver_sigint_attached {α : Type} (resume : World → Run α) (w : World)
    (inv : attached_inv w) :
    deliver Signal.SIGINT resume w = Run.exit 0
      { w with signals := w.signals ++ [Signal.SIGINT],
               out := w.out ++ [Msg.interrupted w.ifindex w.ifname],
               calls := w.calls ++ [Call.set_link_xdp_fd w.ifindex (-1)],
               xdp := none } := by
  have hidx : -1 < ({ w with signals := w.signals ++ [Signal.SIGINT] } : World).ifindex :=
    inv.2.2.1
  have hx : ({ w with signals := w.signals ++ [Signal.SIGINT] } : World).xdp
      = some ({ w with signals := w.signals ++ [Signal.SIGINT] } : World).ifindex := inv.1
  show (if w.sigint_handler = true
        then (int_exit Signal.SIGINT.signo
                { w with signals := w.signals ++ [Signal.SIGINT] }).bind (fun _ w1 => resume w1)
        else Run.killed Signal.SIGINT.signo
                { w with signals := w.signals ++ [Signal.SIGINT] }) = _
  rw [if_pos inv.2.1, int_exit_attached _ _ hidx, exit_bind, if_pos hx]

theorem deliver_sigterm {α : Type} (resume : World → Run α) (w : World) :
    deliver Signal.SIGTERM resume w = Run.killed 15
      { w with signals := w.signals ++ [Signal.SIGTERM] } := rfl

/-- A piece whose actions are steady, run while a signal is on its way, either
exits before the signal arrives, as it does without the signal, or has the signal
delivered in a state that is steady with respect to the one it started in. -/
theorem run_until_cases {α : Type} (sig : Signal) (p : Proc α) :
    ∀ (after : Nat) (w : World), p.steady_acts →
      (∃ code w2, p.run_until sig after w = Run.exit code w2 ∧ p w = Run.exit code w2 ∧
          steady w w2) ∨
      (∃ w2 resume, steady w w2 ∧ p.run_until sig after w = deliver sig resume w2) := by
  induction p with
  | pure a =>
    intro after w _
    refine Or.inr ⟨w, fun w1 => Run.ret a w1, steady_refl w, ?_⟩
    cases after <;> rfl
  | exit code =>
    intro after w _
    cases after with
    | zero => exact Or.inr ⟨w, fun w1 => Run.exit code w1, steady_refl w, rfl⟩
    | succ k => exact Or.inl ⟨code, w, rfl, rfl, steady_refl w⟩
  | get k ih =>
    intro after w h
    have e : (Proc.get k).run_until sig after w = (k w).run_until sig after w := by
      cases after <;> rfl
    rw [e]
    exact ih w after w (h w)
  | act t k ih =>
    intro after w h
    cases after with
    | zero =>
      exact Or.inr ⟨w, fun w1 => (k (t w1).1).run (t w1).2, steady_refl w, rfl⟩
    | succ n =>
      have e : (Proc.act t k).run_until sig (n + 1) w
          = (k (t w).1).run_until sig n (t w).2 := rfl
      rw [e]
      rcases ih (t w).1 n (t w).2 (h.2 (t w).1) with ⟨code, w2, h1, h2, h3⟩ | ⟨w2, res, h1, h2⟩
      · exact Or.inl ⟨code, w2, h1, h2, steady_trans (h.1 w) h3⟩
      · exact Or.inr ⟨w2, res, steady_trans (h.1 w) h1, h2⟩

/-! ## The table after an insert -/

theorem insert_at_perm (rows : List (Nat × List Nat)) (place : Nat) (r : Nat × List Nat) :
    (insert_at rows place r).Perm (r :: rows) := by
  unfold insert_at
  have h : (rows.take place ++ r :: rows.drop place).Perm
      (r :: (rows.take place ++ rows.drop place)) := List.perm_middle
  rw [List.take_append_drop] at h
  exact h

theorem percpu_words_length (nr_cpus value : Nat) (behind : List Nat) :
    (percpu_words nr_cpus value behind).length = nr_cpus := by
  simp [percpu_words]

theorem lookup_insert_new (t : Table) (place key : Nat) (row : List Nat)
    (hk : key ∉ t.keys) :
    bpf_map_lookup_elem { t with rows := insert_at t.rows place (key, row) } key
      = some row := by
  have hpre : key ∉ (t.rows.take place).map Prod.fst := by
    intro h
    apply hk
    obtain ⟨r, hr, e⟩ := List.mem_map.mp h
    exact List.mem_map.mpr ⟨r, List.mem_of_mem_take hr, e⟩
  exact lookup_of_split { t with rows := insert_at t.rows place (key, row) } key row
    (t.rows.take place) (t.rows.drop place) rfl hpre

theorem lookup_insert_other (t : Table) (place key k : Nat) (row : List Nat) (hne : k ≠ key) :
    bpf_map_lookup_elem { t with rows := insert_at t.rows place (key, row) } k
      = bpf_map_lookup_elem t k := by
  unfold bpf_map_lookup_elem insert_at
  have hb : (key == k) = false := by
    simpa using fun e : key = k => hne e.symm
  have hrows : t.rows = t.rows.take place ++ t.rows.drop place :=
    (List.take_append_drop place t.rows).symm
  conv_rhs => rw [hrows]
  simp only [List.find?_append, List.find?_cons, hb]

theorem blacklist_add_keeps_wf (ip_string : String) (w : World)
    (h : w.table.wf w.nr_cpus) :
    (blacklist_add ip_string w).world.table.wf (blacklist_add ip_string w).world.nr_cpus := by
  by_cases hp : (inet_pton ip_string).1 ≤ 0
  · rw [blacklist_add_rejected ip_string w hp]
    exact h
  · have hp2 : 0 < (inet_pton ip_string).1 := not_le.mp hp
    by_cases hk : (inet_pton ip_string).2 ∈ w.table.keys
    · rw [blacklist_add_present ip_string w hp2 hk]
      exact h
    · by_cases hroom : w.table.rows.length < w.table.max_entries
      · by_cases hr : w.update_errno = 0 ∨ w.update_errno = 17
        · rw [blacklist_add_inserted ip_string w hp2 hk hroom hr]
          have hperm := insert_at_perm w.table.rows (w.places.headD w.table.rows.length)
            ((inet_pton ip_string).2, percpu_words w.nr_cpus 0 w.stack_words)
          constructor
          · have hkeys : (w.table.rows.map Prod.fst).Nodup := h.1
            have hk2 : (inet_pton ip_string).2 ∉ w.table.rows.map Prod.fst := hk
            have hp3 := hperm.map Prod.fst
            simp only [Run.world, Table.keys]
            rw [hp3.nodup_iff]
            exact List.nodup_cons.mpr ⟨hk2, hkeys⟩
          · intro r hr2
            simp only [Run.world] at hr2
            rw [hperm.mem_iff, List.mem_cons] at hr2
            rcases hr2 with hr2 | hr2
            · rw [hr2]
              exact percpu_words_length _ _ _
            · exact h.2 r hr2
        · rw [blacklist_add_refused ip_string w hp2 hk hroom (not_or.mp hr)]
          exact h
      · rw [blacklist_add_full ip_string w hp2 hk (not_lt.mp hroom)]
        exact h

theorem stats_poll_keeps_wf (fuel : Nat) (w : World) (h : w.table.wf w.nr_cpus) :
    (stats_poll fuel w).world.table.wf (stats_poll fuel w).world.nr_cpus := by
  obtain ⟨b, w2, e, ho⟩ := stats_poll_frame fuel w
  rw [e]
  unfold only_output at ho
  simp only [Run.world]
  rw [ho]
  exact h

theorem inet_pton_res (ip_string : String) :
    (inet_pton ip_string).1 = 0 ∨ (inet_pton ip_string).1 = 1 := by
  unfold inet_pton
  cases inet_pton4_loop ip_string.toList false 0 [] 0 <;> simp

/-- When key 0 is not in the table, a poll walks over every row once and writes a
line for each row whose total is not zero. -/
theorem stats_poll_complete_without_key_zero (fuel : Nat) (w : World)
    (h0 : 0 ∉ w.table.keys) (hnd : w.table.keys.Nodup)
    (hfuel : w.table.rows.length < fuel) :
    stats_poll fuel w = Run.ret true
      { w with
        stats_i := (w.stats_i + 1) % U32,
        out := w.out ++ [Msg.clear_screen, Msg.debug_notice, Msg.stats ((w.stats_i + 1) % U32)]
                 ++ w.table.rows.filterMap (render w.nr_cpus) } := by
  rw [stats_poll_eq fuel w hnd hfuel]
  unfold cursor_rows
  rw [if_neg h0]

/-- The row that `blacklist_add` stores on a machine with more than one CPU: the
zero it passes in the first slot, and in the other slots the words that lie behind
its local `value` on the stack. -/
theorem blacklist_add_stores_stack_words :
    (blacklist_add "192.2.1.3" sample_world).world.table.rows
      = [(50397888, [0, 94654922851863])] := by
  decide

theorem sum_values_zeros (n : Nat) (values : List Nat) (h : ∀ v ∈ values, v = 0) :
    sum_values n values = 0 := by
  unfold sum_values
  rw [foldl_sum_values]
  have hs : (values.take n).sum = 0 := by
    apply List.sum_eq_zero
    intro v hv
    exact h v (List.mem_of_mem_take hv)
  rw [hs]
  rfl

/-! ## The claims -/

/-- C5 (amended): for every string the address parser rejects, `blacklist_add`
writes the "not in presentation format" diagnostic and ends the process with the
invalid-address exit code 102; it does not return to its caller. -/
theorem blacklist_add_invalid_exits (ip_string : String) (w : World)
    (hbad : (inet_pton ip_string).1 ≤ 0) :
    blacklist_add ip_string w = Run.exit EXIT_FAIL_IP
      { w with out := w.out ++ [Msg.not_presentation ip_string] } := by
  have h0 : (inet_pton ip_string).1 = 0 := by
    rcases inet_pton_res ip_string with h | h
    · exact h
    · omega
  rw [blacklist_add_rejected ip_string w hbad, if_pos h0]

/-- C5 witness: the strings "not.an.ip" and "256.1.1.1" on the sample machine. -/
theorem blacklist_add_invalid_exits_witness :
    ((inet_pton "not.an.ip").1 ≤ 0 ∧
      blacklist_add "not.an.ip" sample_world = Run.exit EXIT_FAIL_IP
        { sample_world with out := sample_world.out ++ [Msg.not_presentation "not.an.ip"] }) ∧
    ((inet_pton "256.1.1.1").1 ≤ 0 ∧
      blacklist_add "256.1.1.1" sample_world = Run.exit EXIT_FAIL_IP
        { sample_world with out := sample_world.out ++ [Msg.not_presentation "256.1.1.1"] }) :=
  ⟨⟨by decide, blacklist_add_invalid_exits "not.an.ip" sample_world (by decide)⟩,
   ⟨by decide, blacklist_add_invalid_exits "256.1.1.1" sample_world (by decide)⟩⟩

/-- C5 counterexample: "not.an.ip" and "256.1.1.1" are not well-formed addresses,
and `blacklist_add` does not return for them: the process exits with code 102. -/
theorem invalid_address_is_fatal :
    (inet_pton "not.an.ip").1 ≤ 0 ∧ (inet_pton "256.1.1.1").1 ≤ 0 ∧
    (¬ ∃ w2, blacklist_add "not.an.ip" sample_world = Run.ret () w2) ∧
    (¬ ∃ w2, blacklist_add "256.1.1.1" sample_world = Run.ret () w2) ∧
    (blacklist_add "not.an.ip" sample_world).exit_code = some 102 ∧
    (blacklist_add "256.1.1.1" sample_world).exit_code = some 102 := by
  refine ⟨by decide, by decide, ?_, ?_, by decide, by decide⟩
  · rintro ⟨w2, h⟩
    rw [blacklist_add_rejected "not.an.ip" sample_world (by decide)] at h
    cases h
  · rintro ⟨w2, h⟩
    rw [blacklist_add_rejected "256.1.1.1" sample_world (by decide)] at h
    cases h

/-- C6: for every table state and every string the address parser rejects
(result <= 0), `blacklist_add` makes no state-changing call, so no insert, and the
table it leaves is the table it found. -/
theorem blacklist_add_invalid_table_unchanged (ip_string : String) (w : World)
    (hbad : (inet_pton ip_string).1 ≤ 0) :
    (blacklist_add ip_string w).world.table = w.table ∧
    (blacklist_add ip_string w).world.calls = w.calls := by
  rw [blacklist_add_rejected ip_string w hbad]
  exact ⟨rfl, rfl⟩

/-- C6 witness: "not.an.ip" and "256.1.1.1" on a machine whose table has rows. -/
theorem blacklist_add_invalid_table_unchanged_witness :
    ((inet_pton "not.an.ip").1 ≤ 0 ∧
      (blacklist_add "not.an.ip" quiet_world).world.table = quiet_world.table ∧
      (blacklist_add "not.an.ip" quiet_world).world.calls = quiet_world.calls) ∧
    ((inet_pton "256.1.1.1").1 ≤ 0 ∧
      (blacklist_add "256.1.1.1" quiet_world).world.table = quiet_world.table ∧
      (blacklist_add "256.1.1.1" quiet_world).world.calls = quiet_world.calls) :=
  ⟨⟨by decide, blacklist_add_invalid_table_unchanged "not.an.ip" quiet_world (by decide)⟩,
   ⟨by decide, blacklist_add_invalid_table_unchanged "256.1.1.1" quiet_world (by decide)⟩⟩

/-- C7: for every key K whose row in the table has one value per CPU, whatever
the CPU count, `stats_collect(record, K)` succeeds, leaves the state as it is, and
sets `record.key` to K and `record.value_sum` to the sum of all the row's values
modulo 2^64. -/
theorem stats_collect_sum (record : stats_key) (K : Nat) (w : World) (values : List Nat)
    (hrow : bpf_map_lookup_elem w.table K = some values)
    (hlen : values.length = w.nr_cpus) :
    stats_collect record K w
      = Run.ret (true, { key := K, value_sum := values.sum % 2 ^ 64 }) w := by
  rw [stats_collect_found record K w values hrow, sum_values_eq values w.nr_cpus hlen]
  rfl

/-- C7 witness: on four CPUs the row [3,0,5,0] gives the total 8, and a row whose
values add up to 2^64 + 1 gives the total 1. -/
theorem stats_collect_sum_witness :
    (bpf_map_lookup_elem four_cpu_world.table 50397888 = some [3, 0, 5, 0] ∧
      [3, 0, 5, 0].length = four_cpu_world.nr_cpus ∧
      stats_collect { key := 0, value_sum := 0 } 50397888 four_cpu_world
        = Run.ret (true, { key := 50397888, value_sum := 8 }) four_cpu_world) ∧
    (bpf_map_lookup_elem four_cpu_world.table 53613254 = some [2 ^ 64 - 1, 0, 2, 0] ∧
      [2 ^ 64 - 1, 0, 2, 0].length = four_cpu_world.nr_cpus ∧
      stats_collect { key := 0, value_sum := 0 } 53613254 four_cpu_world
        = Run.ret (true, { key := 53613254, value_sum := 1 }) four_cpu_world) :=
  ⟨⟨by decide, by decide,
    stats_collect_sum { key := 0, value_sum := 0 } 50397888 four_cpu_world [3, 0, 5, 0]
      (by decide) (by decide)⟩,
   ⟨by decide, by decide,
    (stats_collect_sum { key := 0, value_sum := 0 } 53613254 four_cpu_world
      [2 ^ 64 - 1, 0, 2, 0] (by decide) (by decide)).trans (by norm_num)⟩⟩


/-- C8: for every table state, a poll cycle returns and changes neither the table
nor the attachment, the export or the list of state-changing calls; every key line
it writes is for a key of the table and shows the sum of that key's row, which is
not zero, so no line is written for a key whose per-CPU values are all zero. On a
table with unique keys, given a round per row and one more, the loop ends and
writes, after the headers, exactly one line for each row the cursor walks over
whose counters sum to a non-zero total, and none for the other rows. -/
theorem stats_poll_zero_suppression :
    (∀ (fuel : Nat) (w : World), ∃ b w2 new, stats_poll fuel w = Run.ret b w2 ∧
        w2.table = w.table ∧ w2.xdp = w.xdp ∧ w2.pinned = w.pinned ∧ w2.calls = w.calls ∧
        w2.out = w.out
          ++ [Msg.clear_screen, Msg.debug_notice, Msg.stats ((w.stats_i + 1) % U32)] ++ new ∧
        (∀ key count, Msg.key_line key count ∈ new →
          count ≠ 0 ∧ ∃ values, bpf_map_lookup_elem w.table key = some values ∧
            count = sum_values w.nr_cpus values) ∧
        (∀ key values, bpf_map_lookup_elem w.table key = some values →
          (∀ v ∈ values, v = 0) → ∀ count, Msg.key_line key count ∉ new)) ∧
    (∀ (fuel : Nat) (w : World), w.table.keys.Nodup → w.table.rows.length < fuel →
      ∃ w2, stats_poll fuel w = Run.ret true w2 ∧
        w2.out = w.out
          ++ [Msg.clear_screen, Msg.debug_notice, Msg.stats ((w.stats_i + 1) % U32)]
          ++ (cursor_rows 0 w.table).filterMap (fun r =>
                if sum_values w.nr_cpus r.2 ≠ 0
                then some (Msg.key_line r.1 (sum_values w.nr_cpus r.2)) else none)) := by
  constructor
  · intro fuel w
    obtain ⟨b, new, e, h⟩ := stats_poll_lines fuel w
    have hline : ∀ key count, Msg.key_line key count ∈ new →
        count ≠ 0 ∧ ∃ values, bpf_map_lookup_elem w.table key = some values ∧
          count = sum_values w.nr_cpus values := by
      intro key count hmem
      rcases h _ hmem with hm | ⟨k, values, hrow, hz, hm⟩
      · cases hm
      · simp only [Msg.key_line.injEq] at hm
        rw [hm.1, hm.2]
        exact ⟨hz, values, hrow, rfl⟩
    refine ⟨b, _, new, e, rfl, rfl, rfl, rfl, rfl, hline, ?_⟩
    intro key values hrow hzero count hmem
    obtain ⟨hc, values2, hrow2, hsum⟩ := hline key count hmem
    rw [hrow] at hrow2
    cases hrow2
    exact hc (hsum.trans (sum_values_zeros w.nr_cpus values hzero))
  · intro fuel w hnd hfuel
    exact ⟨_, stats_poll_eq fuel w hnd hfuel, rfl⟩

/-- C8 witness: a poll of a table with a row that was hit and a row whose counters
are all zero ends within three rounds and writes the headers and one line, for the
row that was hit. -/
theorem stats_poll_zero_suppression_witness :
    quiet_world.table.keys.Nodup ∧ quiet_world.table.rows.length < 3 ∧
    (∃ w2, stats_poll 3 quiet_world = Run.ret true w2 ∧
        w2.out = quiet_world.out
          ++ [Msg.clear_screen, Msg.debug_notice, Msg.stats ((quiet_world.stats_i + 1) % U32)]
          ++ (cursor_rows 0 quiet_world.table).filterMap (fun r =>
                if sum_values quiet_world.nr_cpus r.2 ≠ 0
                then some (Msg.key_line r.1 (sum_values quiet_world.nr_cpus r.2))
                else none)) ∧
    (cursor_rows 0 quiet_world.table).filterMap (fun r =>
        if sum_values quiet_world.nr_cpus r.2 ≠ 0
        then some (Msg.key_line r.1 (sum_values quiet_world.nr_cpus r.2)) else none)
      = [Msg.key_line 50397888 5] :=
  ⟨by decide, by decide,
   stats_poll_zero_suppression.2 3 quiet_world (by decide) (by decide), by decide⟩

/-- C3 (evaluation at the failing input): in a table whose second row has the key
0, the poll starts its cursor at that row: it writes a line for the third row only,
although the rows of key 0 (total 7) and of the key before it (total 1) are in the
table with non-zero totals. -/
theorem stats_poll_skips_key_zero :
    key_zero_world.table.keys = [50397888, 0, 53613254] ∧
    key_zero_world.table.keys.Nodup ∧
    stats_poll 4 key_zero_world = Run.ret true
      { key_zero_world with
        stats_i := 1,
        out := [Msg.clear_screen, Msg.debug_notice, Msg.stats 1,
                Msg.key_line 53613254 4] } ∧
    bpf_map_lookup_elem key_zero_world.table 0 = some [5, 2] ∧
    bpf_map_lookup_elem key_zero_world.table 50397888 = some [1, 0] := by
  refine ⟨by decide, by decide, ?_, by decide, by decide⟩
  rw [stats_poll_eq 4 key_zero_world (by decide) (by decide)]
  decide

/-- C2 (evaluation at the failing input): when the export path already holds an
object, the export step unlinks it and goes on to the success message after a
single pin call, the one that failed: nothing is pinned at the path afterwards. -/
theorem export_stale_not_repinned :
    stale_world.pinned = some Export.stale ∧
    main_export stale_world = Run.ret ()
      { stale_world with
        calls := [Call.bpf_obj_pin, Call.unlink], errno := 17, pinned := none,
        out := [Msg.del_previous, Msg.exported] } := by
  refine ⟨rfl, ?_⟩
  rw [main_export_stale_ok stale_world (by decide) (by decide)]
  rfl


/-- C4 (amended): in every run of `main` in which the attach has succeeded, a
later exit of the process that no signal causes is the table-update failure exit
of `blacklist_add` (code 4, for an insert error other than "already exists"), and
it is taken without any detach call: the program is still attached to the device
when the process exits. -/
theorem fatal_exit_after_attach (opts : List Opt) (n : Nat) (w w1 w2 : World) (code : Int)
    (hstart : main_startup opts w.start = Run.ret () w1)
    (hexit : main opts n none w.start = Run.exit code w2) :
    code = EXIT_FAIL_KEY_UPDATE ∧
    w1.xdp = some w1.ifindex ∧ w2.xdp = some w1.ifindex ∧
    ∀ c ∈ w2.calls, c.is_detach = false := by
  obtain ⟨inv, _, _⟩ := main_startup_ret opts w.start w1 hstart (no_detach_start w)
  rw [main_after_startup opts n none w.start w1 hstart] at hexit
  have hs := main_run_steady n 0 w1
  cases hrun : main_run n 0 w1 with
  | ret a w3 =>
    rw [hrun, ret_bind] at hexit
    cases hexit
  | exit code3 w3 =>
    rw [hrun] at hs
    rw [hrun, exit_bind] at hexit
    cases hexit
    have inv2 : attached_inv w2 := attached_inv_of_steady hs.1 inv
    have e3 : w2.xdp = w1.xdp := hs.1.2.2.1
    exact ⟨hs.2, inv.1, by rw [e3]; exact inv.1, inv2.2.2.2⟩
  | killed signo w3 =>
    rw [hrun, killed_bind] at hexit
    cases hexit

/-- C4 witness: started with `--dev eth0` on a machine whose table is full, the
attach succeeds and the first seeding call exits with the table-update code. -/
theorem fatal_exit_after_attach_witness :
    ∃ w1 w2,
      main_startup sample_opts full_world.start = Run.ret () w1 ∧
      main sample_opts 1 none full_world.start = Run.exit EXIT_FAIL_KEY_UPDATE w2 ∧
      (EXIT_FAIL_KEY_UPDATE = EXIT_FAIL_KEY_UPDATE ∧
        w1.xdp = some w1.ifindex ∧ w2.xdp = some w1.ifindex ∧
        ∀ c ∈ w2.calls, c.is_detach = false) :=
  ⟨(main_startup sample_opts full_world.start).world,
   (main sample_opts 1 none full_world.start).world, by decide!, by decide!,
   fatal_exit_after_attach sample_opts 1 full_world _ _ EXIT_FAIL_KEY_UPDATE
     (by decide!) (by decide!)⟩

/-- C4 counterexample: started with `--dev eth0` on a machine whose table is full,
`main` attaches to device 2, then exits with code 4 from the first
`blacklist_add`; at exit the program is still attached to device 2 and the only
`set_link_xdp_fd` call made is the attach. -/
theorem fatal_exit_skips_detach :
    (main_startup sample_opts full_world.start).world.xdp = some 2 ∧
    (main sample_opts 1 none full_world.start).exit_code = some EXIT_FAIL_KEY_UPDATE ∧
    (main sample_opts 1 none full_world.start).world.xdp = some 2 ∧
    (main sample_opts 1 none full_world.start).world.calls
      = [Call.bpf_obj_pin, Call.signal_SIGINT, Call.set_link_xdp_fd 2 5,
         Call.bpf_map_update_elem 50397888 0] := by
  decide!


/-- C1 (amended): for every table state that has room for one more row, when the
kernel does not refuse the insert for another reason, and every well-formed
address whose key is not yet in the table, two calls of `blacklist_add` in a row
both return: the first inserts one row for the key, the second takes the "Already
in blacklist" branch with errno 17 and leaves the table as it is. Afterwards the
key occurs exactly once, and the rows that were there before are all there,
unchanged. -/
theorem blacklist_add_twice (ip_string : String) (w : World)
    (hvalid : 0 < (inet_pton ip_string).1)
    (hnew : (inet_pton ip_string).2 ∉ w.table.keys)
    (hroom : w.table.rows.length < w.table.max_entries)
    (hok : w.update_errno = 0) :
    ∃ w1 w2 row,
      blacklist_add ip_string w = Run.ret () w1 ∧
      blacklist_add ip_string w1 = Run.ret () w2 ∧
      w1.table.rows.Perm (((inet_pton ip_string).2, row) :: w.table.rows) ∧
      w1.out = w.out ++ [Msg.added ip_string (inet_pton ip_string).2] ∧
      w2.out = w1.out ++ [Msg.add_failed ip_string (inet_pton ip_string).2 17,
                          Msg.already_in_blacklist] ∧
      w2.table = w1.table ∧
      w2.table.keys.count (inet_pton ip_string).2 = 1 ∧
      bpf_map_lookup_elem w2.table (inet_pton ip_string).2 = some row ∧
      ∀ k, k ≠ (inet_pton ip_string).2 →
        bpf_map_lookup_elem w2.table k = bpf_map_lookup_elem w.table k := by
  have h1 := blacklist_add_inserted ip_string w hvalid hnew hroom (Or.inl hok)
  have hperm := insert_at_perm w.table.rows (w.places.headD w.table.rows.length)
    ((inet_pton ip_string).2, percpu_words w.nr_cpus 0 w.stack_words)
  have hkeys := hperm.map Prod.fst
  have hin : (inet_pton ip_string).2 ∈
      (({ w with
        calls := w.calls ++ [Call.bpf_map_update_elem (inet_pton ip_string).2 0],
        table := { w.table with
          rows := insert_at w.table.rows (w.places.headD w.table.rows.length)
                    ((inet_pton ip_string).2, percpu_words w.nr_cpus 0 w.stack_words) },
        places := w.places.tail,
        out := w.out ++ [Msg.added ip_string (inet_pton ip_string).2] } : World)).table.keys := by
    show (inet_pton ip_string).2 ∈ List.map Prod.fst _
    rw [hkeys.mem_iff]
    simp
  have h2 := blacklist_add_present ip_string _ hvalid hin
  refine ⟨_, _, percpu_words w.nr_cpus 0 w.stack_words, h1, h2, hperm, rfl, rfl, rfl,
    ?_, ?_, ?_⟩
  · have hc : List.count (inet_pton ip_string).2 (List.map Prod.fst w.table.rows) = 0 :=
      List.count_eq_zero.mpr hnew
    show List.count (inet_pton ip_string).2 (List.map Prod.fst _) = 1
    rw [hkeys.count_eq]
    simp [hc]
  · exact lookup_insert_new w.table _ _ _ hnew
  · intro k hk
    exact lookup_insert_other w.table _ _ k _ hk

/-- C1 witness: the address 192.2.1.3 on a machine whose table has two rows and
room, where the kernel puts the new row between them. -/
theorem blacklist_add_twice_witness :
    0 < (inet_pton "192.2.1.3").1 ∧
    (inet_pton "192.2.1.3").2 ∉ placed_world.table.keys ∧
    placed_world.table.rows.length < placed_world.table.max_entries ∧
    placed_world.update_errno = 0 ∧
    ∃ w1 w2 row,
      blacklist_add "192.2.1.3" placed_world = Run.ret () w1 ∧
      blacklist_add "192.2.1.3" w1 = Run.ret () w2 ∧
      w1.table.rows.Perm (((inet_pton "192.2.1.3").2, row) :: placed_world.table.rows) ∧
      w1.out = placed_world.out ++ [Msg.added "192.2.1.3" (inet_pton "192.2.1.3").2] ∧
      w2.out = w1.out ++ [Msg.add_failed "192.2.1.3" (inet_pton "192.2.1.3").2 17,
                          Msg.already_in_blacklist] ∧
      w2.table = w1.table ∧
      w2.table.keys.count (inet_pton "192.2.1.3").2 = 1 ∧
      bpf_map_lookup_elem w2.table (inet_pton "192.2.1.3").2 = some row ∧
      ∀ k, k ≠ (inet_pton "192.2.1.3").2 →
        bpf_map_lookup_elem w2.table k = bpf_map_lookup_elem placed_world.table k :=
  ⟨by decide, by decide, by decide, by decide,
   blacklist_add_twice "192.2.1.3" placed_world (by decide) (by decide) (by decide)
     (by decide)⟩

/-- C1 counterexample: on a table that is full, the first `blacklist_add` of a
well-formed address whose key is not in the table inserts nothing and ends the
process with the table-update code. -/
theorem blacklist_add_twice_full_table :
    0 < (inet_pton "192.2.1.3").1 ∧
    (inet_pton "192.2.1.3").2 ∉ full_world.table.keys ∧
    (blacklist_add "192.2.1.3" full_world).exit_code = some EXIT_FAIL_KEY_UPDATE ∧
    (blacklist_add "192.2.1.3" full_world).world.table = full_world.table := by
  decide

/-! ### Signals after the attach -/

theorem main_signal_cases (sig : Signal) (opts : List Opt) (n : Nat) (w w1 : World)
    (hstart : main_startup opts w = Run.ret () w1) :
    (∃ code w2, main opts n (some sig) w = Run.exit code w2 ∧ steady w1 w2) ∨
    (∃ w2 resume, steady w1 w2 ∧ main opts n (some sig) w = deliver sig resume w2) := by
  rw [main_after_startup opts n (some sig) w w1 hstart]
  have hs := main_run_steady n 0 w1
  cases hrun : main_run n 0 w1 with
  | ret a w2 =>
    rw [hrun] at hs
    rw [ret_bind]
    show (∃ code w3, (main_step n).run_until sig w2.signal_after w2 = Run.exit code w3 ∧
            steady w1 w3) ∨
         (∃ w3 resume, steady w1 w3 ∧
            (main_step n).run_until sig w2.signal_after w2 = deliver sig resume w3)
    rcases run_until_cases sig (main_step n) w2.signal_after w2 (steady_acts_main_step n)
      with ⟨code, w3, h1, _, h3⟩ | ⟨w3, res, h1, h2⟩
    · exact Or.inl ⟨code, w3, h1, steady_trans hs.1 h3⟩
    · exact Or.inr ⟨w3, res, steady_trans hs.1 h1, h2⟩
  | exit code w2 =>
    rw [hrun] at hs
    rw [exit_bind]
    exact Or.inl ⟨code, w2, rfl, hs.1⟩
  | killed signo w2 =>
    rw [hrun] at hs
    exact absurd hs.2 id

theorem main_signal_delivered (sig : Signal) (opts : List Opt) (n : Nat) (w w1 : World)
    (hstart : main_startup opts w = Run.ret () w1) (hnone : w1.signals = [])
    (hdel : sig ∈ (main opts n (some sig) w).world.signals) :
    ∃ w2 resume, steady w1 w2 ∧ main opts n (some sig) w = deliver sig resume w2 := by
  rcases main_signal_cases sig opts n w w1 hstart with ⟨code, w2, h1, h2⟩ | h
  · rw [h1] at hdel
    have e : w2.signals = [] := h2.2.2.2.2.1.trans hnone
    simp only [Run.world, e, List.not_mem_nil] at hdel
  · exact h

/-- C9 (amended): in every run of `main` in which the attach succeeded, when the
interrupt signal SIGINT is then delivered, between or inside the statements of
seeding, sleep and polling, the handler `int_exit` calls `set_link_xdp_fd(ifindex,
-1)` on the device index that was attached and the process exits with code 0, so
the attachment state at exit is Detached. When the termination signal SIGTERM is
delivered instead, no handler runs: the process is killed with the program still
attached and no detach called. A signal that arrives during a statement which
would otherwise run to its end is delivered. -/
theorem sigint_detaches (opts : List Opt) (n : Nat) (w w1 : World)
    (hstart : main_startup opts w.start = Run.ret () w1) :
    w1.xdp = some w1.ifindex ∧
    Call.set_link_xdp_fd w1.ifindex w1.prog_fd0 ∈ w1.calls ∧
    (Signal.SIGINT ∈ (main opts n (some Signal.SIGINT) w.start).world.signals →
      ∃ w2 : World, w2.xdp = some w1.ifindex ∧ (∀ c ∈ w2.calls, c.is_detach = false) ∧
        main opts n (some Signal.SIGINT) w.start = Run.exit 0
          { w2 with signals := w2.signals ++ [Signal.SIGINT],
                    out := w2.out ++ [Msg.interrupted w1.ifindex w1.ifname],
                    calls := w2.calls ++ [Call.set_link_xdp_fd w1.ifindex (-1)],
                    xdp := none }) ∧
    (Signal.SIGTERM ∈ (main opts n (some Signal.SIGTERM) w.start).world.signals →
      ∃ w2 : World, w2.xdp = some w1.ifindex ∧ (∀ c ∈ w2.calls, c.is_detach = false) ∧
        main opts n (some Signal.SIGTERM) w.start = Run.killed 15
          { w2 with signals := w2.signals ++ [Signal.SIGTERM] }) ∧
    (∀ (sig : Signal) (w2 w3 : World), main_run n 0 w1 = Run.ret () w2 →
      main_step n w2 = Run.ret () w3 →
      sig ∈ (main opts n (some sig) w.start).world.signals) := by
  obtain ⟨inv, hcall, hsig⟩ := main_startup_ret opts w.start w1 hstart (no_detach_start w)
  have hnone : w1.signals = [] := hsig
  refine ⟨inv.1, hcall, ?_, ?_, ?_⟩
  · intro hdel
    obtain ⟨w2, res, hst, e⟩ := main_signal_delivered _ opts n w.start w1 hstart hnone hdel
    have inv2 : attached_inv w2 := attached_inv_of_steady hst inv
    refine ⟨w2, by rw [hst.2.2.1]; exact inv.1, inv2.2.2.2, ?_⟩
    rw [e, deliver_sigint_attached res w2 inv2, hst.1, hst.2.1]
  · intro hdel
    obtain ⟨w2, res, hst, e⟩ := main_signal_delivered _ opts n w.start w1 hstart hnone hdel
    have inv2 : attached_inv w2 := attached_inv_of_steady hst inv
    refine ⟨w2, by rw [hst.2.2.1]; exact inv.1, inv2.2.2.2, ?_⟩
    rw [e, deliver_sigterm]
  · intro sig w2 w3 hrun hstep
    rw [main_after_startup opts n (some sig) w.start w1 hstart, hrun, ret_bind]
    show sig ∈ ((main_step n).run_until sig w2.signal_after w2).world.signals
    have hs2 := main_run_steady n 0 w1
    rw [hrun] at hs2
    rcases run_until_cases sig (main_step n) w2.signal_after w2 (steady_acts_main_step n)
      with ⟨code, w4, _, h2, _⟩ | ⟨w4, res, h1, h2⟩
    · rw [hstep] at h2
      cases h2
    · have inv4 : attached_inv w4 :=
        attached_inv_of_steady (steady_trans hs2.1 h1) inv
      rw [h2]
      cases sig with
      | SIGINT =>
        rw [deliver_sigint_attached res w4 inv4]
        simp [Run.world]
      | SIGTERM =>
        rw [deliver_sigterm]
        simp [Run.world]

/-- C9 witness: `--dev eth0` on the sample machine. SIGINT arrives inside the
first poll, after four of its actions; SIGTERM arrives inside the first
`blacklist_add`, after its insert. -/
theorem sigint_detaches_witness :
    (∃ w1, main_startup sample_opts mid_poll_world.start = Run.ret () w1 ∧
      Signal.SIGINT ∈
        (main sample_opts 4 (some Signal.SIGINT) mid_poll_world.start).world.signals ∧
      ∃ w2 : World, w2.xdp = some w1.ifindex ∧ (∀ c ∈ w2.calls, c.is_detach = false) ∧
        main sample_opts 4 (some Signal.SIGINT) mid_poll_world.start = Run.exit 0
          { w2 with signals := w2.signals ++ [Signal.SIGINT],
                    out := w2.out ++ [Msg.interrupted w1.ifindex w1.ifname],
                    calls := w2.calls ++ [Call.set_link_xdp_fd w1.ifindex (-1)],
                    xdp := none }) ∧
    (∃ w1, main_startup sample_opts mid_statement_world.start = Run.ret () w1 ∧
      Signal.SIGTERM ∈
        (main sample_opts 0 (some Signal.SIGTERM) mid_statement_world.start).world.signals ∧
      ∃ w2 : World, w2.xdp = some w1.ifindex ∧ (∀ c ∈ w2.calls, c.is_detach = false) ∧
        main sample_opts 0 (some Signal.SIGTERM) mid_statement_world.start = Run.killed 15
          { w2 with signals := w2.signals ++ [Signal.SIGTERM] }) :=
  ⟨⟨(main_startup sample_opts mid_poll_world.start).world, by decide!, by decide!,
    (sigint_detaches sample_opts 4 mid_poll_world _ (by decide!)).2.2.1 (by decide!)⟩,
   ⟨(main_startup sample_opts mid_statement_world.start).world, by decide!, by decide!,
    (sigint_detaches sample_opts 0 mid_statement_world _ (by decide!)).2.2.2.1 (by decide!)⟩⟩

/-- C9 counterexample: the termination signal SIGTERM has no handler. Delivered
after the attach, during the first poll interval, it kills the process while the
program is still attached to device 2; no detach has been called. -/
theorem sigterm_skips_detach :
    (main_startup sample_opts sample_world.start).world.xdp = some 2 ∧
    (∃ w2, main sample_opts 6 (some Signal.SIGTERM) sample_world.start = Run.killed 15 w2 ∧
      w2.xdp = some 2 ∧
      w2.calls = [Call.bpf_obj_pin, Call.signal_SIGINT, Call.set_link_xdp_fd 2 5,
                  Call.bpf_map_update_elem 50397888 0, Call.bpf_map_update_elem 50397888 0,
                  Call.bpf_map_update_elem 53613254 0]) :=
  ⟨by decide!, (main sample_opts 6 (some Signal.SIGTERM) sample_world.start).world,
   by decide!, by decide!, by decide!⟩

/-- C10: the seven exit codes are pairwise distinct, and each failure path ends
the process with the code of its category: a missing `--dev`, and an option list
with an option other than `--dev`, an over-long device name or an unknown device,
with the configuration code 2; a failed resource limit or load with the generic
code 1; a failed pin and a failed unlink of the export path with the table-export
code 5; a failed attach with the attach code 3; an insert failure other than
"already exists" (a full table, or any other errno than 17 with which the kernel
refuses the row) with the table-update code 4; an unparsable address with the
invalid-address code 102. -/
theorem exit_codes_by_category :
    exit_codes = [0, 1, 2, 3, 4, 5, 102] ∧ exit_codes.Nodup ∧
    (∀ (n : Nat) (sig : Option Signal) (w : World),
      (main [] n sig w.start).exit_code = some EXIT_FAIL_OPTION) ∧
    (∀ (opts : List Opt) (n : Nat) (sig : Option Signal) (w : World),
      (∃ o ∈ opts, o.opt ≠ 'd' ∨ IF_NAMESIZE ≤ o.optarg.utf8ByteSize ∨
        if_nametoindex w o.optarg = 0) →
      (main opts n sig w.start).exit_code = some EXIT_FAIL_OPTION) ∧
    (∀ w : World, ¬ (w.rlimit_ok = true ∧ w.load_ok = true ∧ w.prog_fd0 ≠ 0) →
      (main_load w).exit_code = some EXIT_FAIL) ∧
    (∀ w : World, w.pinned = none → w.pin_ok = false →
      (main_export w).exit_code = some EXIT_FAIL_MAP) ∧
    (∀ w : World, w.pinned.isSome = true → w.unlink_ok = false →
      (main_export w).exit_code = some EXIT_FAIL_MAP) ∧
    (∀ w : World, ¬ (w.xdp_ok = true ∧ w.ifindex ∈ w.devices.map (fun d => (d.2 : Int))) →
      (main_attach w).exit_code = some EXIT_FAIL_XDP) ∧
    (∀ (ip_string : String) (w : World), 0 < (inet_pton ip_string).1 →
      (inet_pton ip_string).2 ∉ w.table.keys → w.table.max_entries ≤ w.table.rows.length →
      (blacklist_add ip_string w).exit_code = some EXIT_FAIL_KEY_UPDATE) ∧
    (∀ (ip_string : String) (w : World), (inet_pton ip_string).1 ≤ 0 →
      (blacklist_add ip_string w).exit_code = some EXIT_FAIL_IP) ∧
    (∀ (ip_string : String) (w : World), 0 < (inet_pton ip_string).1 →
      (inet_pton ip_string).2 ∉ w.table.keys → w.table.rows.length < w.table.max_entries →
      w.update_errno ≠ 0 ∧ w.update_errno ≠ 17 →
      (blacklist_add ip_string w).exit_code = some EXIT_FAIL_KEY_UPDATE) := by
  refine ⟨rfl, by decide, ?_, ?_, ?_, ?_, ?_, ?_, ?_, ?_, ?_⟩
  · intro n sig w
    have h : main_startup [] w.start = Run.exit EXIT_FAIL_OPTION
        { w.start with out := w.start.out ++ [Msg.dev_missing, Msg.usage_text] } := by
      unfold main_startup
      rw [bind_apply]
      simp only [main_options, proc_pure_apply, ret_bind]
      rw [bind_apply, main_required_missing w.start rfl, exit_bind]
    rw [main_of_startup_exit [] n sig w.start _ _ h]
    rfl
  · intro opts n sig w hbad
    obtain ⟨w2, e⟩ := main_options_bad opts w.start hbad
    have h : main_startup opts w.start = Run.exit EXIT_FAIL_OPTION w2 := by
      unfold main_startup
      rw [bind_apply, e, exit_bind]
    rw [main_of_startup_exit opts n sig w.start _ _ h]
    rfl
  · intro w h
    obtain ⟨m, e⟩ := main_load_fail w h
    rw [e]
    rfl
  · intro w h1 h2
    rw [main_export_free_fail w h1 h2]
    rfl
  · intro w h1 h2
    rw [main_export_stale_fail w h1 h2]
    rfl
  · intro w h
    rw [main_attach_fail w h]
    rfl
  · intro ip_string w h1 h2 h3
    rw [blacklist_add_full ip_string w h1 h2 h3]
    rfl
  · intro ip_string w h
    rw [blacklist_add_rejected ip_string w h]
    rfl
  · intro ip_string w h1 h2 h3 h4
    rw [blacklist_add_refused ip_string w h1 h2 h3 h4]
    rfl

/-- C10 witness: each failure path on the sample machine: an unknown device and
an over-long device name, a failed load, a refused pin, a refused unlink, a refused
attach, an insert into a full table, an unparsable address, an insert the kernel
has no memory for. -/
theorem exit_codes_by_category_witness :
    (main [{ opt := 'd', optarg := "eth1" }] 0 none sample_world.start).exit_code
      = some EXIT_FAIL_OPTION ∧
    (main [{ opt := 'd', optarg := "a-device-name-too-long" }] 0 none
      sample_world.start).exit_code = some EXIT_FAIL_OPTION ∧
    (¬ (no_load_world.rlimit_ok = true ∧ no_load_world.load_ok = true ∧
          no_load_world.prog_fd0 ≠ 0) ∧
      (main_load no_load_world).exit_code = some EXIT_FAIL) ∧
    (no_pin_world.pinned = none ∧ no_pin_world.pin_ok = false ∧
      (main_export no_pin_world).exit_code = some EXIT_FAIL_MAP) ∧
    (no_unlink_world.pinned.isSome = true ∧ no_unlink_world.unlink_ok = false ∧
      (main_export no_unlink_world).exit_code = some EXIT_FAIL_MAP) ∧
    (¬ (no_xdp_world.xdp_ok = true ∧
          no_xdp_world.ifindex ∈ no_xdp_world.devices.map (fun d => (d.2 : Int))) ∧
      (main_attach no_xdp_world).exit_code = some EXIT_FAIL_XDP) ∧
    (0 < (inet_pton "192.2.1.3").1 ∧ (inet_pton "192.2.1.3").2 ∉ full_world.table.keys ∧
      full_world.table.max_entries ≤ full_world.table.rows.length ∧
      (blacklist_add "192.2.1.3" full_world).exit_code = some EXIT_FAIL_KEY_UPDATE) ∧
    ((inet_pton "256.1.1.1").1 ≤ 0 ∧
      (blacklist_add "256.1.1.1" sample_world).exit_code = some EXIT_FAIL_IP) ∧
    (0 < (inet_pton "192.2.1.3").1 ∧
      (inet_pton "192.2.1.3").2 ∉ no_memory_world.table.keys ∧
      no_memory_world.table.rows.length < no_memory_world.table.max_entries ∧
      (no_memory_world.update_errno ≠ 0 ∧ no_memory_world.update_errno ≠ 17) ∧
      (blacklist_add "192.2.1.3" no_memory_world).exit_code = some EXIT_FAIL_KEY_UPDATE) :=
  ⟨exit_codes_by_category.2.2.2.1 [{ opt := 'd', optarg := "eth1" }] 0 none sample_world
     ⟨{ opt := 'd', optarg := "eth1" }, by decide, Or.inr (Or.inr (by decide))⟩,
   exit_codes_by_category.2.2.2.1 [{ opt := 'd', optarg := "a-device-name-too-long" }] 0 none
     sample_world
     ⟨{ opt := 'd', optarg := "a-device-name-too-long" }, by decide, Or.inr (Or.inl (by decide))⟩,
   ⟨by decide, exit_codes_by_category.2.2.2.2.1 no_load_world (by decide)⟩,
   ⟨by decide, by decide,
    exit_codes_by_category.2.2.2.2.2.1 no_pin_world (by decide) (by decide)⟩,
   ⟨by decide, by decide,
    exit_codes_by_category.2.2.2.2.2.2.1 no_unlink_world (by decide) (by decide)⟩,
   ⟨by decide, exit_codes_by_category.2.2.2.2.2.2.2.1 no_xdp_world (by decide)⟩,
   ⟨by decide, by decide, by decide,
    exit_codes_by_category.2.2.2.2.2.2.2.2.1 "192.2.1.3" full_world
      (by decide) (by decide) (by decide)⟩,
   ⟨by decide,
    exit_codes_by_category.2.2.2.2.2.2.2.2.2.1 "256.1.1.1" sample_world (by decide)⟩,
   ⟨by decide, by decide, by decide, by decide,
    exit_codes_by_category.2.2.2.2.2.2.2.2.2.2 "192.2.1.3" no_memory_world
      (by decide) (by decide) (by decide) (by decide)⟩⟩



end XdpDdos
